import Mathlib

/-!
Verification of the Vietnamese legal document splitter
(`src/web-app/backend/src/core/document_splitter.py`, rule-based mode
`use_llm=False`, together with `can_cu_handler.py`,
`department_classifier.py` and `src/backend/gen_meta/quyet_dinh_handler.py`).

Texts are modelled as lists of characters (`Str`), documents as lists of
lines.  Each Python regex that is anchored at a line start (`(?m)^...`) is
embedded as a per-line matcher; `re.finditer`/`re.search` over the whole
text with such patterns is embedded as a scan over the line list.  This is
faithful up to two documented conveniences:
* `\s*`/`\s+` inside those patterns can, in Python, also absorb the
  newline of a preceding blank line; that shifts a match start onto the
  blank line but never changes which lines match, and all emitted block
  contents are `strip`-ped, so the produced blocks are unchanged;
* a bare numbered line `"1."` with no trailing space matches
  `^\s*([0-9]+)\.\s+` in Python only by consuming the following newline;
  the per-line matcher accepts it directly (same match start).
-/

namespace VnLegal

/-- Text as an explicit character list (kernel-friendly `String`). -/
abbrev Str := List Char

/-- Python `\s` / `str.strip()` whitespace, restricted to the ASCII
whitespace characters that occur in these documents. -/
def pyIsSpace (c : Char) : Bool :=
  c = ' ' || c = '\t' || c = '\n' || c = '\r' || c = '\x0b' || c = '\x0c'

/-- Uppercase/lowercase pairs of the Vietnamese alphabet (beyond ASCII),
used to embed Python's case-insensitive matching, `str.lower`, `str.upper`
and `str.isupper` on the characters these documents use. -/
def viPairs : List (Char × Char) :=
  [('À','à'), ('Á','á'), ('Ả','ả'), ('Ã','ã'), ('Ạ','ạ'),
   ('Ă','ă'), ('Ằ','ằ'), ('Ắ','ắ'), ('Ẳ','ẳ'), ('Ẵ','ẵ'), ('Ặ','ặ'),
   ('Â','â'), ('Ầ','ầ'), ('Ấ','ấ'), ('Ẩ','ẩ'), ('Ẫ','ẫ'), ('Ậ','ậ'),
   ('È','è'), ('É','é'), ('Ẻ','ẻ'), ('Ẽ','ẽ'), ('Ẹ','ẹ'),
   ('Ê','ê'), ('Ề','ề'), ('Ế','ế'), ('Ể','ể'), ('Ễ','ễ'), ('Ệ','ệ'),
   ('Ì','ì'), ('Í','í'), ('Ỉ','ỉ'), ('Ĩ','ĩ'), ('Ị','ị'),
   ('Ò','ò'), ('Ó','ó'), ('Ỏ','ỏ'), ('Õ','õ'), ('Ọ','ọ'),
   ('Ô','ô'), ('Ồ','ồ'), ('Ố','ố'), ('Ổ','ổ'), ('Ỗ','ỗ'), ('Ộ','ộ'),
   ('Ơ','ơ'), ('Ờ','ờ'), ('Ớ','ớ'), ('Ở','ở'), ('Ỡ','ỡ'), ('Ợ','ợ'),
   ('Ù','ù'), ('Ú','ú'), ('Ủ','ủ'), ('Ũ','ũ'), ('Ụ','ụ'),
   ('Ư','ư'), ('Ừ','ừ'), ('Ứ','ứ'), ('Ử','ử'), ('Ữ','ữ'), ('Ự','ự'),
   ('Ỳ','ỳ'), ('Ý','ý'), ('Ỷ','ỷ'), ('Ỹ','ỹ'), ('Ỵ','ỵ'),
   ('Đ','đ')]

/-- Python `str.lower` on one character (ASCII + Vietnamese table). -/
def lowerChar (c : Char) : Char :=
  if c.isUpper then c.toLower
  else
    match viPairs.find? (fun p => p.1 = c) with
    | some p => p.2
    | none => c

/-- Python `str.upper` on one character (ASCII + Vietnamese table). -/
def upperChar (c : Char) : Char :=
  if c.isLower then c.toUpper
  else
    match viPairs.find? (fun p => p.2 = c) with
    | some p => p.1
    | none => c

def lowerStr (s : Str) : Str := s.map lowerChar

def upperStr (s : Str) : Str := s.map upperChar

/-- A character that is cased and lowercase (for `str.isupper`). -/
def isLowerCased (c : Char) : Bool :=
  c.isLower || viPairs.any (fun p => p.2 = c)

/-- A character that is cased and uppercase (for `str.isupper`). -/
def isUpperCased (c : Char) : Bool :=
  c.isUpper || viPairs.any (fun p => p.1 = c)

/-- Python `str.isupper`: at least one cased character and no lowercase
cased character. -/
def pyIsUpper (s : Str) : Bool :=
  s.all (fun c => !isLowerCased c) && s.any (fun c => isUpperCased c || isLowerCased c)

/-- Python `\w` (word character) for the alphabet in scope:
ASCII alphanumerics, underscore, and the Vietnamese letters. -/
def isWordChar (c : Char) : Bool :=
  c.isAlphanum || c = '_' || viPairs.any (fun p => p.1 = c || p.2 = c)

/-- Python `str.lstrip()`. -/
def lstripL (s : Str) : Str := s.dropWhile pyIsSpace

/-- Python `str.rstrip()`. -/
def rstripL (s : Str) : Str := ((s.reverse).dropWhile pyIsSpace).reverse

/-- Python `str.strip()`. -/
def stripL (s : Str) : Str := rstripL (lstripL s)

/-- Python `text.split('\n')` (Python semantics: `"".split('\n') = [""]`). -/
def splitLines : Str → List Str
  | [] => [[]]
  | '\n' :: t => [] :: splitLines t
  | c :: t =>
    match splitLines t with
    | [] => [[c]]
    | l :: ls => (c :: l) :: ls

/-- Python `'\n'.join(lines)`. -/
def joinNl : List Str → Str
  | [] => []
  | [l] => l
  | l :: ls => l ++ '\n' :: joinNl ls

/-- Python `text.replace('\r\n', '\n').replace('\r', '\n')`
(split_document step 0, document_splitter.py line 134). -/
def normNl : Str → Str
  | [] => []
  | '\r' :: '\n' :: t => '\n' :: normNl t
  | '\r' :: t => '\n' :: normNl t
  | c :: t => c :: normNl t

/-- Substring test, Python `needle in hay`. -/
def containsSub (needle hay : Str) : Bool :=
  match hay with
  | [] => needle.isEmpty
  | _ :: t => needle.isPrefixOf hay || containsSub needle t

/-- Python `int()` on a digit string. -/
def natOfDigits (s : Str) : Nat :=
  s.foldl (fun acc c => acc * 10 + (c.toNat - '0'.toNat)) 0

/-- Decimal digits of a natural number. -/
def natDigits (n : Nat) : Str := Nat.toDigits 10 n

/-! ### Generic regex-fragment helpers (single line, no `\n` inside) -/

/-- Python `\s*` inside a line. -/
def wsStar (s : Str) : Str := s.dropWhile pyIsSpace

/-- Python `\s+` inside a line (greedy; every continuation in the embedded
patterns starts with a non-space, so greediness is exact). -/
def wsPlus : Str → Option Str
  | c :: t => if pyIsSpace c then some (t.dropWhile pyIsSpace) else none
  | [] => none

/-- Case-insensitive literal: `kw` is given lowercase; consumes
`kw.length` characters whose `lowerChar` image is `kw`. -/
def ciDrop (kw : Str) (s : Str) : Option Str :=
  if (s.take kw.length).map lowerChar = kw then some (s.drop kw.length) else none

/-- The regex class `[0-9]`/`\d` (given as an explicit list so that a
character known to be a digit can be case-analysed). -/
def isDigitCh (c : Char) : Bool :=
  ['0','1','2','3','4','5','6','7','8','9'].contains c

/-- Python `\*?\*?`: drop up to two leading `*`. -/
def dropStars2 : Str → Str
  | '*' :: '*' :: t => t
  | '*' :: t => t
  | t => t

/-- Python `\.?`: drop an optional leading dot. -/
def dropDot : Str → Str
  | '.' :: t => t
  | t => t

/-- Split a run of ASCII digits off the front. -/
def digitsSplit (s : Str) : Str × Str :=
  (s.takeWhile isDigitCh, s.dropWhile isDigitCh)

/-- Python `\b` at the start of `s` coming out of a word character:
next char must not be a word character. -/
def atWordEnd (s : Str) : Bool :=
  match s with
  | [] => true
  | c :: _ => !isWordChar c

/-- First index `≥ start` of a line satisfying `p` (the line-level
rendering of `re.search(pat, text[pos:], re.MULTILINE)`). -/
def firstIdxFrom (p : Str → Bool) (lines : List Str) (start : Nat) : Option Nat :=
  ((List.range lines.length).filter (fun i => start ≤ i && p (lines.getD i []))).head?

/-- Python `min(next_boundaries)` with a default (`len(text)` in the source):
candidates are all `< dflt`, so folding `min` over them is exact. -/
def minBound (cands : List (Option Nat)) (dflt : Nat) : Nat :=
  (cands.filterMap id).foldr min dflt

/-- Python `lines[a:b]` for line ranges. -/
def sliceLines (ls : List Str) (a b : Nat) : List Str := (ls.drop a).take (b - a)

/-- Try `att` at every suffix of `s`, leftmost first (`re.search` for an
unanchored pattern). -/
def searchOpt {α : Type} (att : Str → Option α) : Str → Option α
  | [] => att []
  | s@(_ :: t) =>
    match att s with
    | some r => some r
    | none => searchOpt att t

/-- Boolean variant of `searchOpt`. -/
def searchB (att : Str → Bool) : Str → Bool
  | [] => att []
  | s@(_ :: t) => att s || searchB att t

/-! ### Embedded line patterns (document_splitter.py, `self.patterns`
and the inline regexes of the rule-based path) -/

/-- Python `(?m)^\s*\*?\*?Điều\s+([0-9]+)\.?\*?\*?\s*(.*)$` (IGNORECASE), the
`article` pattern (line 84).  Returns the captured number and the
stripped title, as the callers use them (`group(1)`, `group(2).strip()`).
-/
def matchArticleLine (line : Str) : Option (Str × Str) := do
  let s := wsStar line
  let s := dropStars2 s
  let s ← ciDrop ['đ','i','ề','u'] s
  let s ← wsPlus s
  let (num, s) := digitsSplit s
  if num.isEmpty then none
  else
    let s := dropDot s
    let s := dropStars2 s
    some (num, rstripL (wsStar s))

/-- Python `(?m)^\s*([0-9]+)\.\s+(.*)$`, the numbered-clause pattern used by
`_split_by_khoan_clauses` (line 628).  Returns the captured number. -/
def matchNumberedLine (line : Str) : Option Str :=
  let s := wsStar line
  let (num, s) := digitsSplit s
  if num.isEmpty then none
  else
    match s with
    | '.' :: rest =>
      match rest with
      | [] => some num
      | c :: _ => if pyIsSpace c then some num else none
    | _ => none

/-- Python `(?mi)^\s*N[ơo]i\s+nh[aă]n\s*:.*` — the `_cut_noi_nhan_tail`
pattern (line 268). -/
def isNoiNhanCutLine (line : Str) : Bool :=
  (do
    let s := wsStar line
    let s ← ciDrop ['n'] s
    let s ← match s with
      | c :: t => if lowerChar c = 'ơ' || lowerChar c = 'o' then some t else none
      | [] => none
    let s ← ciDrop ['i'] s
    let s ← wsPlus s
    let s ← ciDrop ['n','h'] s
    let s ← match s with
      | c :: t => if lowerChar c = 'a' || lowerChar c = 'ă' then some t else none
      | [] => none
    let s ← ciDrop ['n'] s
    let s := wsStar s
    match s with
    | ':' :: _ => some ()
    | _ => none).isSome

/-- Python `^\s*Nơi\s+nhận` (IGNORECASE) — the last-article boundary
(line 554). -/
def isNoiNhanLooseLine (line : Str) : Bool :=
  (do
    let s := wsStar line
    let s ← ciDrop ['n','ơ','i'] s
    let s ← wsPlus s
    let _ ← ciDrop ['n','h','ậ','n'] s
    some ()).isSome

/-- Python `^\s*Điều\s+\d+` (IGNORECASE) — next-Điều boundary (lines 643, 554
relatives). -/
def isDieuNumLine (line : Str) : Bool :=
  (do
    let s := wsStar line
    let s ← ciDrop ['đ','i','ề','u'] s
    let s ← wsPlus s
    match s with
    | c :: _ => if isDigitCh c then some () else none
    | [] => none).isSome

/-- Python `^\s*\*\*Điều\s+\d+` (IGNORECASE) — the legal-basis stop pattern
(lines 499, 502). -/
def isStarDieuLine (line : Str) : Bool :=
  (do
    let s := wsStar line
    let s ← match s with
      | '*' :: '*' :: t => some t
      | _ => none
    let s ← ciDrop ['đ','i','ề','u'] s
    let s ← wsPlus s
    match s with
    | c :: _ => if isDigitCh c then some () else none
    | [] => none).isSome

/-- Python `^\s*QUYẾT\s*ĐỊNH` (IGNORECASE) (lines 498, 514). -/
def isQDStartLine (line : Str) : Bool :=
  (do
    let s := wsStar line
    let s ← ciDrop ['q','u','y','ế','t'] s
    let s := wsStar s
    let _ ← ciDrop ['đ','ị','n','h'] s
    some ()).isSome

/-- Python `^\s*(Căn\s*cứ|Theo)\b.*$` (MULTILINE, IGNORECASE), the
`legal_basis_start` pattern (line 83).  `\b` applies after either
alternative. -/
def isLegalBasisStartLine (line : Str) : Bool :=
  (do
    let s := wsStar line
    match ciDrop ['c','ă','n'] s with
    | some s1 =>
      let s1 := wsStar s1
      let s1 ← ciDrop ['c','ứ'] s1
      if atWordEnd s1 then some () else none
    | none =>
      let s ← ciDrop ['t','h','e','o'] s
      if atWordEnd s then some () else none).isSome

/-- Roman-numeral/digit class `[IVXLC\d]` with IGNORECASE. -/
def isRomanChar (c : Char) : Bool :=
  isDigitCh c || ['I','V','X','L','C','i','v','x','l','c'].contains c

/-- Python `^\s*\*\*Chương\s+[IVXLC\d]+` (IGNORECASE) — khoan boundary
(line 648). -/
def isStarChuongLine (line : Str) : Bool :=
  (do
    let s := wsStar line
    let s ← match s with
      | '*' :: '*' :: t => some t
      | _ => none
    let s ← ciDrop ['c','h','ư','ơ','n','g'] s
    let s ← wsPlus s
    match s with
    | c :: _ => if isRomanChar c then some () else none
    | [] => none).isSome

/-- Python `^\s*Phụ\s+lục` (IGNORECASE) — article/khoan boundary
(lines 557, 653). -/
def isPhuLucLooseLine (line : Str) : Bool :=
  (do
    let s := wsStar line
    let s ← ciDrop ['p','h','ụ'] s
    let s ← wsPlus s
    let _ ← ciDrop ['l','ụ','c'] s
    some ()).isSome

/-- Python `^\s*\*\*Phụ\s+lục\s+[0-9]+` (IGNORECASE) — next-appendix boundary
(line 700). -/
def isStarPhuLucLine (line : Str) : Bool :=
  (do
    let s := wsStar line
    let s ← match s with
      | '*' :: '*' :: t => some t
      | _ => none
    let s ← ciDrop ['p','h','ụ'] s
    let s ← wsPlus s
    let s ← ciDrop ['l','ụ','c'] s
    let s ← wsPlus s
    match s with
    | c :: _ => if isDigitCh c then some () else none
    | [] => none).isSome

/-- Find the first `**`, returning the parts before and after it. -/
def splitAtStars : Str → Option (Str × Str)
  | [] => none
  | '*' :: '*' :: t => some ([], t)
  | c :: t => (splitAtStars t).map (fun p => (c :: p.1, p.2))

/-- Python `(?im)^\s*\*\*Chương\s+([IVXLC\d]+)\s*—\s*(.*?)\*\*` (line 597).
Returns `(num, title, group0)` where `group0` is the matched span of the
line (from its start through the closing `**`), as used for the block
content. -/
def matchChuongHeading (line : Str) : Option (Str × Str × Str) := do
  let s := wsStar line
  let s ← match s with
    | '*' :: '*' :: t => some t
    | _ => none
  let s ← ciDrop ['c','h','ư','ơ','n','g'] s
  let s ← wsPlus s
  let num := s.takeWhile isRomanChar
  if num.isEmpty then none
  else
    let s := s.dropWhile isRomanChar
    let s := wsStar s
    let s ← match s with
      | '—' :: t => some t
      | _ => none
    let s := wsStar s
    let (raw, after) ← splitAtStars s
    some (num, stripL raw, line.take (line.length - after.length))

/-- Python `(?im)^\s*\*\*Phụ\s+lục\s+([0-9]+)\s*—\s*(.*?)\*\*` (line 687).
Returns `(num, stripped title)`. -/
def matchPhuLucHeading (line : Str) : Option (Str × Str) := do
  let s := wsStar line
  let s ← match s with
    | '*' :: '*' :: t => some t
    | _ => none
  let s ← ciDrop ['p','h','ụ'] s
  let s ← wsPlus s
  let s ← ciDrop ['l','ụ','c'] s
  let s ← wsPlus s
  let (num, s) := digitsSplit s
  if num.isEmpty then none
  else
    let s := wsStar s
    let s ← match s with
      | '—' :: t => some t
      | _ => none
    let s := wsStar s
    let (raw, _) ← splitAtStars s
    some (num, stripL raw)

/-! ### Data model -/

/-- The `section_info` dict of a `(section_type, content, info)` tuple:
the keys the rule-based path can set, each optional. -/
structure Info where
  name : Option Str := none
  source : Option Str := none
  category : Option Str := none
  articleNum : Option Str := none
  articleTitle : Option Str := none
  khoanNum : Option Str := none
  chuongNum : Option Str := none
  chuongTitle : Option Str := none
  phuLucNum : Option Str := none
  phuLucTitle : Option Str := none
deriving Repr, DecidableEq

/-- A `(section_type, section_content, section_info)` tuple. -/
structure Sec where
  type : Str
  content : Str
  info : Info
deriving Repr, DecidableEq

/-- Python `LegalBlock` (document_splitter.py lines 29-38).  `confidence` is a
Python float that is always `0.0` on the rule-based path, so it is
modelled as a `Nat` constantly `0`. -/
structure LegalBlock where
  doc_id : Str
  data_type : Str
  category : Str
  date : Str
  source : Str
  content : Str
  confidence : Nat := 0
deriving Repr, DecidableEq

/-! ### Title predicates (document_splitter.py lines 308-321) -/

/-- Python `_is_d1_scope_and_subject`: title contains both
"phạm vi điều chỉnh" and "đối tượng áp dụng" (lowercased). -/
def is_d1_scope_and_subject (title : Str) : Bool :=
  let t := lowerStr (stripL title)
  containsSub "phạm vi điều chỉnh".toList t && containsSub "đối tượng áp dụng".toList t

/-- Python `_is_scope_only`. -/
def is_scope_only (title : Str) : Bool :=
  let t := lowerStr (stripL title)
  containsSub "phạm vi điều chỉnh".toList t && !containsSub "đối tượng áp dụng".toList t

/-- Python `_is_subject_only`. -/
def is_subject_only (title : Str) : Bool :=
  let t := lowerStr (stripL title)
  containsSub "đối tượng áp dụng".toList t && !containsSub "phạm vi điều chỉnh".toList t

/-! ### `_cut_noi_nhan_tail` (lines 266-269) -/

/-- Index of the first "Nơi nhận:" line (`lines.length` if none). -/
def cutIdx (lines : List Str) : Nat :=
  (firstIdxFrom isNoiNhanCutLine lines 0).getD lines.length

/-- Python `_cut_noi_nhan_tail`, on lines: keep everything before the first
"Nơi nhận:" line.  (Python also cuts the whitespace-only lines directly
before that line; block contents are stripped, so this is invisible in
the output.) -/
def cut_noi_nhan_tail (lines : List Str) : List Str := lines.take (cutIdx lines)

/-! ### `_extract_document_title` (lines 271-306) -/

/-- Python `any(keyword in line.upper() for keyword in
['ĐẠI HỌC', 'TRƯỜNG', 'SỐ:', 'NGÀY'])`. -/
def titleHeaderKw (line : Str) : Bool :=
  let u := upperStr line
  containsSub "ĐẠI HỌC".toList u || containsSub "TRƯỜNG".toList u ||
  containsSub "SỐ:".toList u || containsSub "NGÀY".toList u

/-- The first loop of `_extract_document_title` over indices into the
first ten lines. -/
def titleLoop1 (lines : List Str) : List Nat → Option Str
  | [] => none
  | i :: rest =>
    let line := stripL (lines.getD i [])
    if line.isEmpty then titleLoop1 lines rest
    else if titleHeaderKw line then titleLoop1 lines rest
    else if "Về việc".toList.isPrefixOf line then some line
    else if upperStr line = "QUYẾT ĐỊNH".toList && i + 1 < lines.length &&
            (let nl := stripL (lines.getD (i+1) [])
             !nl.isEmpty && !("Căn cứ".toList.isPrefixOf nl)) then
      some (stripL (lines.getD (i+1) []))
    else if 20 < line.length && !pyIsUpper line && !("**".toList.isPrefixOf line) then
      some line
    else titleLoop1 lines rest

/-- The fallback loop of `_extract_document_title`. -/
def titleLoop2 (lines : List Str) : List Str → Option Str
  | [] => none
  | l :: rest =>
    let line := stripL l
    if !line.isEmpty && !titleHeaderKw line then some line
    else titleLoop2 lines rest

/-- Python `_extract_document_title`. -/
def extract_document_title (lines : List Str) : Str :=
  match titleLoop1 lines (List.range (min 10 lines.length)) with
  | some t => t
  | none =>
    match titleLoop2 lines (lines.take 10) with
    | some t => t
    | none => "Tài liệu pháp lý".toList

/-! ### Legal-basis and decision sections (lines 486-524) -/

/-- The shared scan-loop shape of `_extract_legal_basis_grouped` and
`_extract_quyet_dinh_section`: skip lines until one matches `isStart`;
from then on collect every line, stopping (exclusive) at the first
subsequent line matching `isStop` — except that a line matching
`isStart` is always collected (its branch is checked first).  In
`_extract_legal_basis_grouped` the redundant second `**Điều` test of
line 502 is subsumed by the stop test of line 498-499. -/
def scanBlockLoop (isStart isStop : Str → Bool) : List Str → Bool → List Str
  | [], _ => []
  | l :: ls, inB =>
    if isStart l then l :: scanBlockLoop isStart isStop ls true
    else if inB then
      if isStop l then [] else l :: scanBlockLoop isStart isStop ls true
    else scanBlockLoop isStart isStop ls false

/-- Python `_extract_legal_basis_grouped`. -/
def extract_legal_basis_grouped (lines : List Str) : Str :=
  joinNl (scanBlockLoop isLegalBasisStartLine
    (fun l => isQDStartLine l || isStarDieuLine l) lines false)

/-- Python `_extract_quyet_dinh_section`. -/
def extract_quyet_dinh_section (lines : List Str) : Str :=
  joinNl (scanBlockLoop isQDStartLine
    (fun l => isLegalBasisStartLine l || isDieuNumLine l) lines false)

/-! ### Chương and Phụ lục sections (lines 592-612, 682-715) -/

/-- Python `_extract_chuong_sections`: one `chuong` section per heading line,
content the matched span of the line, stripped. -/
def extract_chuong_sections (lines : List Str) : List Sec :=
  lines.filterMap (fun line =>
    match matchChuongHeading line with
    | some (num, title, grp0) =>
      some ⟨"chuong".toList, stripL grp0,
        { chuongNum := some num, chuongTitle := some title,
          source := some ("Chương ".toList ++ num ++ " — ".toList ++ title) }⟩
    | none => none)

/-- Indices of lines whose head matches `p`. -/
def idxsWhere (p : Str → Bool) (lines : List Str) : List Nat :=
  (List.range lines.length).filter (fun i => p (lines.getD i []))

/-- Python `_extract_phu_luc_sections` body for one heading at line `i`:
span up to the next `**Phụ lục` line (strictly after `i`). -/
def phuLucSpan (lines : List Str) (i : Nat) : Str :=
  let e := minBound [firstIdxFrom isStarPhuLucLine lines (i+1)] lines.length
  stripL (joinNl (sliceLines lines i e))

/-- Python `_extract_phu_luc_sections`. -/
def extract_phu_luc_sections (lines : List Str) : List Sec :=
  (idxsWhere (fun l => (matchPhuLucHeading l).isSome) lines).filterMap (fun i =>
    match matchPhuLucHeading (lines.getD i []) with
    | some (num, title) =>
      let txt := phuLucSpan lines i
      if txt.isEmpty then none
      else some ⟨"phu_luc".toList, txt,
        { phuLucNum := some num, phuLucTitle := some title,
          source := some ("Phụ lục ".toList ++ num) }⟩
    | none => none)

/-! ### `_split_by_khoan_clauses` (lines 614-680) -/

/-- Indices of the numbered-clause lines of an article. -/
def numberedIdxs (artLines : List Str) : List Nat :=
  idxsWhere (fun l => (matchNumberedLine l).isSome) artLines

/-- End boundary of the last clause (lines 638-657): the earliest of the
next `Điều`, `**Chương`, `Phụ lục` line at or after `k`, else the end of
the article. -/
def khoanEnd (artLines : List Str) (k : Nat) : Nat :=
  minBound
    [firstIdxFrom isDieuNumLine artLines k,
     firstIdxFrom isStarChuongLine artLines k,
     firstIdxFrom isPhuLucLooseLine artLines k]
    artLines.length

/-- The whole-article section used by several fallbacks. -/
def articleSec (artLines : List Str) (num title : Str) : Sec :=
  ⟨"article".toList, joinNl artLines,
    { articleNum := some num, articleTitle := some title }⟩

/-- The clause loop of `_split_by_khoan_clauses`: one `khoan` section per
numbered line, spanning to the next numbered line (or `khoanEnd`),
stripped, dropped if blank. -/
def khoanSecs (artLines : List Str) (num title : Str) : List Nat → List Sec
  | [] => []
  | k :: rest =>
    let e := match rest.head? with
      | some k2 => k2
      | none => khoanEnd artLines k
    let txt := stripL (joinNl (sliceLines artLines k e))
    let knum := (matchNumberedLine (artLines.getD k [])).getD []
    (if txt.isEmpty then []
     else [⟨"khoan".toList, txt,
       { articleNum := some num, articleTitle := some title, khoanNum := some knum }⟩]) ++
    khoanSecs artLines num title rest

/-- Python `_split_by_khoan_clauses`. -/
def split_by_khoan_clauses (artLines : List Str) (num title : Str) : List Sec :=
  if is_subject_only title then [articleSec artLines num title]
  else if containsSub "và".toList title then
    let ks := numberedIdxs artLines
    if ks.isEmpty then [articleSec artLines num title]
    else khoanSecs artLines num title ks
  else [articleSec artLines num title]

/-! ### `_extract_articles_with_new_rules` (lines 526-590) -/

/-- The per-article dispatch (lines 564-584): the two Điều-1 special
cases keep the whole article, everything else goes through
`_split_by_khoan_clauses`. -/
def processArticle (artLines : List Str) (num title : Str) : List Sec :=
  if num = ['1'] && is_d1_scope_and_subject title then [articleSec artLines num title]
  else if num = ['1'] && is_scope_only title then [articleSec artLines num title]
  else split_by_khoan_clauses artLines num title

/-- End boundary of the last article (lines 552-560): first `Nơi nhận`
or `Phụ lục` line at or after `i`, else end of text. -/
def lastArticleEnd (lines : List Str) (i : Nat) : Nat :=
  minBound
    [firstIdxFrom isNoiNhanLooseLine lines i,
     firstIdxFrom isPhuLucLooseLine lines i]
    lines.length

/-- The article loop over the indices of the `article`-pattern lines. -/
def articlesLoop (lines : List Str) : List Nat → List Sec
  | [] => []
  | i :: rest =>
    let e := match rest.head? with
      | some j => j
      | none => lastArticleEnd lines i
    let nt := (matchArticleLine (lines.getD i [])).getD ([], [])
    processArticle (sliceLines lines i e) nt.1 nt.2 ++ articlesLoop lines rest

/-- Python `_extract_articles_with_new_rules`. -/
def extract_articles_with_new_rules (lines : List Str) : List Sec :=
  extract_chuong_sections lines ++
  articlesLoop lines (idxsWhere (fun l => (matchArticleLine l).isSome) lines) ++
  extract_phu_luc_sections lines

/-! ### `_split_by_hierarchy` (lines 323-359) -/

/-- Python `_split_by_hierarchy`: cut the "Nơi nhận" tail, then legal basis,
decision section, articles. -/
def split_by_hierarchy (lines0 : List Str) : List Sec :=
  let lines := cut_noi_nhan_tail lines0
  let basis := extract_legal_basis_grouped lines
  (if basis.isEmpty then []
   else [⟨"legal_basis".toList, basis,
     { name := some "Căn cứ".toList,
       source := some (extract_document_title lines),
       category := some "source_doc".toList }⟩]) ++
  (let qd := extract_quyet_dinh_section lines
   if qd.isEmpty then []
   else [⟨"quyet_dinh".toList, qd, { name := some "Quyết định".toList }⟩]) ++
  extract_articles_with_new_rules lines

/-! ### Document-level metadata: doc_id (lines 186-230) -/

/-- Character class `[A-Z0-9ĐƠƯ/.\-–&]` with IGNORECASE. -/
def isSoIdChar (c : Char) : Bool :=
  c.isAlpha || isDigitCh c ||
  ['Đ','đ','Ơ','ơ','Ư','ư','/','.','-','–','&'].contains c

/-- Python `(?mi)^\s*Số\s*:\s*([A-Z0-9ĐƠƯ/.\-–&]+)\s*$` — doc_id pattern 1
(line 78), applied per line. -/
def matchSoLine (line : Str) : Option Str := do
  let s := wsStar line
  let s ← ciDrop ['s','ố'] s
  let s := wsStar s
  let s ← match s with
    | ':' :: t => some t
    | _ => none
  let s := wsStar s
  let run := s.takeWhile isSoIdChar
  if run.isEmpty then none
  else
    let rest := s.dropWhile isSoIdChar
    if rest.all pyIsSpace then some run else none

/-- Character class `[A-ZĐƠƯ&]` with IGNORECASE (agency codes). -/
def isAgencyChar (c : Char) : Bool :=
  c.isAlpha || ['Đ','đ','Ơ','ơ','Ư','ư','&'].contains c

/-- Python `\d+` then `ch`, returning the rest. -/
def digits1 (s : Str) : Option Str :=
  let (num, rest) := digitsSplit s
  if num.isEmpty then none else some rest

/-- nonempty agency-class run, returning the rest. -/
def agency1 (s : Str) : Option Str :=
  let run := s.takeWhile isAgencyChar
  if run.isEmpty then none else some (s.dropWhile isAgencyChar)

/-- Consume one literal character. -/
def lit1 (c : Char) : Str → Option Str
  | d :: t => if d = c then some t else none
  | [] => none

/-- Given the input and the unconsumed rest, the consumed span
(`match.group(0)`/`group(1)` of the doc_id patterns). -/
def consumed (s rest : Str) : Str := s.take (s.length - rest.length)

/-- Python `(\d+\/QĐ-[A-ZĐƠƯ&]+)` (IGNORECASE) — doc_id pattern 2 (line 198). -/
def tryQdId (s : Str) : Option Str := do
  let r ← digits1 s
  let r ← lit1 '/' r
  let r ← ciDrop ['q','đ'] r
  let r ← lit1 '-' r
  let r ← agency1 r
  some (consumed s r)

/-- Python `(\d+\/\d+\/TT-[A-ZĐƠƯ&]+)` (IGNORECASE) — pattern 3 (line 204). -/
def tryTtId (s : Str) : Option Str := do
  let r ← digits1 s
  let r ← lit1 '/' r
  let r ← digits1 r
  let r ← lit1 '/' r
  let r ← ciDrop ['t','t'] r
  let r ← lit1 '-' r
  let r ← agency1 r
  some (consumed s r)

/-- Python `(\d+\/\d+\/NĐ-CP)` (IGNORECASE) — pattern 4 (line 210). -/
def tryNdId (s : Str) : Option Str := do
  let r ← digits1 s
  let r ← lit1 '/' r
  let r ← digits1 r
  let r ← lit1 '/' r
  let r ← ciDrop ['n','đ','-','c','p'] r
  some (consumed s r)

/-- Python `(\d+\/NQ-[A-ZĐƠƯ&]+)` (IGNORECASE) — pattern 5 (line 216). -/
def tryNqId (s : Str) : Option Str := do
  let r ← digits1 s
  let r ← lit1 '/' r
  let r ← ciDrop ['n','q'] r
  let r ← lit1 '-' r
  let r ← agency1 r
  some (consumed s r)

/-- Python `(QD-DHCNTT[&]?TT)` (IGNORECASE) — pattern 6 (line 222). -/
def tryQdDhId (s : Str) : Option Str := do
  let r ← ciDrop ['q','d','-','d','h','c','n','t','t'] s
  let r := match r with
    | '&' :: t => t
    | t => t
  let r ← ciDrop ['t','t'] r
  some (consumed s r)

/-- Python `[\/\-]?`: optional separator. -/
def sepOpt : Str → Str
  | '/' :: t => t
  | '-' :: t => t
  | t => t

/-- Python `(\d+[\/\-]\d+[\/\-]?\d*[\/\-]?[A-ZĐƠƯ\-&]*)` (IGNORECASE) —
pattern 7 (line 228).  After the mandatory `\d+[\/\-]\d+` every item is
optional/starred over pairwise-disjoint classes, so plain greedy
consumption is exact. -/
def tryGenericId (s : Str) : Option Str := do
  let r ← digits1 s
  let r ← match r with
    | '/' :: t => some t
    | '-' :: t => some t
    | _ => none
  let r ← digits1 r
  let r := sepOpt r
  let r := r.dropWhile isDigitCh
  let r := sepOpt r
  let r := r.dropWhile (fun c => isAgencyChar c || c = '-')
  some (consumed s r)

/-- The doc_id fallback cascade of `_extract_document_metadata`
(lines 189-230).  Pattern 1 only looks at the first 2000 characters. -/
def extractDocId (text : Str) : Str :=
  let p1 := ((splitLines (text.take 2000)).filterMap matchSoLine).head?
  match p1 with
  | some v => stripL v
  | none =>
    match searchOpt tryQdId text with
    | some v => v
    | none =>
      match searchOpt tryTtId text with
      | some v => v
      | none =>
        match searchOpt tryNdId text with
        | some v => v
        | none =>
          match searchOpt tryNqId text with
          | some v => v
          | none =>
            match searchOpt tryQdDhId text with
            | some v => v
            | none =>
              match searchOpt tryGenericId text with
              | some v => v
              | none => []

/-! ### Document-level metadata: date (lines 79-80, 232-259) -/

/-- Python `(\d{1,2})\s+`: one or two digits followed by whitespace (a run of
three or more digits fails both greedy and backtracked parses). -/
def day2 (s : Str) : Option (Str × Str) :=
  let (run, rest) := digitsSplit s
  if run.length = 1 || run.length = 2 then
    (wsPlus rest).map (fun r => (run, r))
  else none

/-- Python `ngày\s+(\d{1,2})\s+tháng\s+(\d{1,2})\s+năm\s+(\d{4})` (IGNORECASE)
at the current position; the year takes the first four of at least four
digits. -/
def matchNgayAt (s : Str) : Option (Str × Str × Str) := do
  let s ← ciDrop ['n','g','à','y'] s
  let s ← wsPlus s
  let (d, s) ← day2 s
  let s ← ciDrop ['t','h','á','n','g'] s
  let s ← wsPlus s
  let (m, s) ← day2 s
  let s ← ciDrop ['n','ă','m'] s
  let s ← wsPlus s
  let (run, _) := digitsSplit s
  if run.length < 4 then none
  else some (d, m, run.take 4)

/-- Python `([^,]+),\s*ngày…` (`date_location`, line 79): the first comma that
is preceded by a non-comma character and followed (after `\s*`) by the
`ngày…` tail.  (Python reports the leftmost match start inside the
non-comma run before that comma; the captured day/month/year are the
same.) -/
def dateLocScan : Option Char → Str → Option (Str × Str × Str)
  | _, [] => none
  | prev, ',' :: t =>
    (match prev with
     | some c =>
       if c = ',' then none
       else matchNgayAt (wsStar t)
     | none => none).orElse (fun _ => dateLocScan (some ',') t)
  | _, c :: t => dateLocScan (some c) t

/-- Python `date_simple` (line 80): the `ngày…` pattern anywhere. -/
def dateSimpleScan (text : Str) : Option (Str × Str × Str) :=
  searchOpt matchNgayAt text

/-- The two-digit-year pivot of lines 239-241 / 253-255:
`if year_int < 100: year_int += 2000 if year_int < 50 else 1900`. -/
def normalizeYear (y : Nat) : Nat :=
  if y < 100 then (if y < 50 then y + 2000 else y + 1900) else y

def isLeapYear (y : Nat) : Bool :=
  (y % 4 = 0 && y % 100 ≠ 0) || y % 400 = 0

def daysInMonth (y m : Nat) : Nat :=
  if m = 2 then (if isLeapYear y then 29 else 28)
  else if [4, 6, 9, 11].contains m then 30
  else 31

/-- The calendar check performed by the `datetime(year, month, day)`
constructor (its `ValueError` is the `except` path of lines 244/258). -/
def validDate (y m d : Nat) : Bool :=
  1 ≤ m && m ≤ 12 && 1 ≤ d && d ≤ daysInMonth y m && 1 ≤ y && y ≤ 9999

/-- Two-digit zero-padded field of `strftime('%Y-%m-%d')`. -/
def fmt2 (n : Nat) : Str := if n < 10 then '0' :: natDigits n else natDigits n

/-- Lines 238-243: pivot the year, validate through `datetime`, format
as `yyyy-mm-dd`; `none` is the `ValueError` branch (date discarded).
(`%Y` prints the year unpadded; all reachable years have four digits.) -/
def mkDateStr (dS mS yS : Str) : Option Str :=
  let y := normalizeYear (natOfDigits yS)
  let m := natOfDigits mS
  let d := natOfDigits dS
  if validDate y m d then
    some (natDigits y ++ '-' :: (fmt2 m ++ '-' :: fmt2 d))
  else none

/-- The date part of `_extract_document_metadata` (lines 232-259):
`date_location` first, falling back to `date_simple`, empty string when
both miss or the date is calendar-invalid. -/
def extractDate (text : Str) : Str :=
  let simple :=
    match dateSimpleScan text with
    | some (d, m, y) => (mkDateStr d m y).getD []
    | none => []
  match dateLocScan none text with
  | some (d, m, y) => (mkDateStr d m y).getD simple
  | none => simple

/-! ### `_generate_category_rule_based` (lines 450-484) -/

/-- The ordered `keyword_mapping` dict (lines 464-474). -/
def keyword_mapping : List (Str × List Str) :=
  [("postgraduate_training".toList,
     ["tiến sĩ".toList, "thạc sĩ".toList, "sau đại học".toList, "ts".toList, "ths".toList]),
   ("admissions".toList,
     ["tuyển sinh".toList, "xét tuyển".toList, "điều kiện dự tuyển".toList]),
   ("finance_and_tuition".toList,
     ["học phí".toList, "miễn giảm".toList, "thu".toList, "chi".toList, "quy định phí".toList]),
   ("examination".toList,
     ["kỳ thi".toList, "thi cử".toList, "đánh giá".toList, "kiểm tra".toList]),
   ("internship".toList,
     ["thực tập".toList, "tttn".toList, "doanh nghiệp".toList, "internship".toList]),
   ("distance_learning".toList,
     ["đào tạo từ xa".toList, "e-learning".toList, "online".toList, "qua mạng".toList]),
   ("student_affairs".toList,
     ["công tác sinh viên".toList, "khen thưởng".toList, "kỷ luật".toList,
      "học bổng".toList, "rèn luyện".toList]),
   ("human_resources".toList,
     ["tổ chức cán bộ".toList, "nhân sự".toList, "cbvc".toList]),
   ("academic_affairs".toList,
     ["phòng đào tạo".toList, "chương trình học".toList, "tín chỉ".toList,
      "kế hoạch giảng dạy".toList, "gdtc".toList, "thể chất".toList, "quy chế".toList])]

/-- First category whose keyword occurs in the lowered content. -/
def categoryLookup (lowered : Str) : List (Str × List Str) → Str
  | [] => "training_and_regulations".toList
  | (cat, kws) :: rest =>
    if kws.any (fun kw => containsSub kw lowered) then cat
    else categoryLookup lowered rest

/-- Python `_generate_category_rule_based`. -/
def generate_category_rule_based (content : Str) : Str :=
  categoryLookup (lowerStr content) keyword_mapping

/-! ### `_create_block_metadata` (lines 1199-1270) and block creation -/

/-- The `source` field of `_create_block_metadata`, restricted to the
section types the rule-based splitter produces (`legal_basis`,
`quyet_dinh`, `article`, `khoan`, `chuong`, `phu_luc`); an explicit
`section_info['source']` takes precedence.  The branches for the
LLM-only types (`subsection`, `khoan_number_clause`, `point`,
`nhu_sau_*`, `quy_trinh_*`) are unreachable here and fold into the empty
default. -/
def blockSource (s : Sec) : Str :=
  match s.info.source with
  | some src => src
  | none =>
    if s.type = "legal_basis".toList then "Căn cứ".toList
    else if s.type = "quyet_dinh".toList then "Quyết định".toList
    else if s.type = "article".toList then
      "Điều ".toList ++ (s.info.articleNum.getD [])
    else if s.type = "khoan".toList then
      "Điều ".toList ++ (s.info.articleNum.getD []) ++
        " -> Khoản ".toList ++ (s.info.khoanNum.getD [])
    else []

/-- Python `split_document` with `use_llm=False` (lines 119-184): empty input
guard, newline normalization, document metadata, rule-based hierarchy
split, blank sections dropped, rule-based category, stripped content. -/
def split_document (text : Str) (filename : Str) : List LegalBlock :=
  let _ := filename
  if (stripL text).isEmpty then []
  else
    let t := normNl text
    let docId := extractDocId t
    let date := extractDate t
    let sections := split_by_hierarchy (splitLines t)
    sections.filterMap (fun s =>
      if (stripL s.content).isEmpty then none
      else some
        { doc_id := docId
          data_type := "markdown".toList
          category := generate_category_rule_based s.content
          date := date
          source := blockSource s
          content := stripL s.content })

/-- Python `to_markdown` (lines 1410-1441).  On the rule-based path every
block's confidence is 0, so the conditional confidence line never
fires (the float formatting of line 1433 is therefore not modelled). -/
def to_markdown (blocks : List LegalBlock) : Str :=
  let mdLines := blocks.foldl (fun (acc : List Str × Nat) b =>
    let sep : List Str := if acc.2 > 0 then [[], "---".toList, []] else []
    (acc.1 ++ sep ++
      ["## Metadata".toList,
       "- **doc_id:** ".toList ++ b.doc_id,
       "- **data_type:** ".toList ++ b.data_type,
       "- **category:** ".toList ++ b.category,
       "- **date:** ".toList ++ b.date,
       "- **source:** ".toList ++ b.source] ++
      (if b.confidence > 0 then ["- **confidence:** ?".toList] else []) ++
      [[], "## Nội dung".toList, [], b.content], acc.2 + 1)) ([], 0)
  joinNl mdLines.1

/-! ### `can_cu_handler.create_can_cu_blocks`
(src/web-app/backend/src/core/can_cu_handler.py, lines 30-80) -/

/-- Python `(QUYẾT[\s]*ĐỊNH|Quyết[\s]*định)\s*:` (IGNORECASE) at the current
position (unanchored `re.search`, so tried at every position). -/
def tryCanCuStop (s : Str) : Bool :=
  (do
    let s ← ciDrop ['q','u','y','ế','t'] s
    let s := wsStar s
    let s ← ciDrop ['đ','ị','n','h'] s
    let s := wsStar s
    match s with
    | ':' :: _ => some ()
    | _ => none).isSome

/-- The stop test of line 51, over the stripped line. -/
def canCuStopSearch (striped : Str) : Bool := searchB tryCanCuStop striped

/-- Python `Căn\s*cứ|Theo\s+đề\s+nghị` (IGNORECASE) at the current position. -/
def tryCanCuOpener (s : Str) : Bool :=
  (do
    match ciDrop ['c','ă','n'] s with
    | some s1 =>
      let s1 := wsStar s1
      let _ ← ciDrop ['c','ứ'] s1
      some ()
    | none =>
      let s ← ciDrop ['t','h','e','o'] s
      let s ← wsPlus s
      let s ← ciDrop ['đ','ề'] s
      let s ← wsPlus s
      let _ ← ciDrop ['n','g','h','ị'] s
      some ()).isSome

/-- The opener test of line 55, over the stripped line. -/
def canCuOpenerSearch (striped : Str) : Bool := searchB tryCanCuOpener striped

/-- The line loop of `create_can_cu_blocks` (lines 47-63): break on the
stop pattern, collect (rstripped) opener lines, and once inside the
block collect every line until the break. -/
def canCuLoop : List Str → Bool → List Str
  | [], _ => []
  | l :: ls, inB =>
    let striped := stripL l
    if canCuStopSearch striped then []
    else if canCuOpenerSearch striped then rstripL l :: canCuLoop ls true
    else if inB then rstripL l :: canCuLoop ls true
    else canCuLoop ls false

/-- Python `create_can_cu_blocks`, over the document's lines: join, strip,
delete every `*`, and emit one `legal_basis` section when nonempty. -/
def create_can_cu_blocks (lines : List Str) : List Sec :=
  let content0 := stripL (joinNl (canCuLoop lines false))
  let content := content0.filter (fun c => c ≠ '*')
  if !content.isEmpty && !(stripL content).isEmpty then
    [⟨"legal_basis".toList, content,
      { name := some "Căn cứ".toList, source := some "Căn cứ".toList,
        category := some "source_doc".toList }⟩]
  else []

/-! ### `quyet_dinh_handler.find_quyet_dinh_span`
(src/backend/gen_meta/quyet_dinh_handler.py, lines 88-143) -/

/-- Python `(?im)^[ \t]*#*\s*\*{0,2}\s*(QUYẾT\s*ĐỊNH|Quyết\s*định)\*{0,2}\s*:?[^\n]*$`
— after the keyword everything to the end of the line matches
unconditionally. -/
def isQdOpenerLine (line : Str) : Bool :=
  (do
    let s := line.dropWhile (fun c => c = ' ' || c = '\t')
    let s := s.dropWhile (fun c => c = '#')
    let s := wsStar s
    let s := dropStars2 s
    let s := wsStar s
    let s ← ciDrop ['q','u','y','ế','t'] s
    let s := wsStar s
    let _ ← ciDrop ['đ','ị','n','h'] s
    some ()).isSome

/-- Python `(?im)^[ \t]*[\*\-•]?\s*N[ơo]i\s+nh[aă]n\s*:?` — the span's
"Nơi nhận" end marker (colon optional, bullet tolerated). -/
def isNoiNhanQdLine (line : Str) : Bool :=
  (do
    let s := line.dropWhile (fun c => c = ' ' || c = '\t')
    let s := match s with
      | c :: t => if c = '*' || c = '-' || c = '•' then t else s
      | [] => s
    let s := wsStar s
    let s ← ciDrop ['n'] s
    let s ← match s with
      | c :: t => if lowerChar c = 'ơ' || lowerChar c = 'o' then some t else none
      | [] => none
    let s ← ciDrop ['i'] s
    let s ← wsPlus s
    let s ← ciDrop ['n','h'] s
    let s ← match s with
      | c :: t => if lowerChar c = 'a' || lowerChar c = 'ă' then some t else none
      | [] => none
    let _ ← ciDrop ['n'] s
    some ()).isSome

/-- Python `(?im)^(KT\.\s*HIỆU TRƯỞNG|HIỆU TRƯỞNG|TM\.\s*|GIÁM ĐỐC|CHỦ TỊCH)\b`
— no leading whitespace is allowed; `\b` after the `TM.\s*` branch
demands a word character right after the consumed whitespace. -/
def isSignatureLine (line : Str) : Bool :=
  (match ciDrop ['k','t','.'] line with
   | some s =>
     match ciDrop ['h','i','ệ','u',' ','t','r','ư','ở','n','g'] (wsStar s) with
     | some r => atWordEnd r
     | none => false
   | none => false) ||
  (match ciDrop ['h','i','ệ','u',' ','t','r','ư','ở','n','g'] line with
   | some r => atWordEnd r
   | none => false) ||
  (match ciDrop ['t','m','.'] line with
   | some s =>
     match wsStar s with
     | c :: _ => isWordChar c
     | [] => false
   | none => false) ||
  (match ciDrop ['g','i','á','m',' ','đ','ố','c'] line with
   | some r => atWordEnd r
   | none => false) ||
  (match ciDrop ['c','h','ủ',' ','t','ị','c','h'] line with
   | some r => atWordEnd r
   | none => false)

/-- Python `(?im)^[ \t]*\*{0,2}\s*Điều\s+\d+` — span boundary. -/
def isQdDieuLine (line : Str) : Bool :=
  (do
    let s := line.dropWhile (fun c => c = ' ' || c = '\t')
    let s := dropStars2 s
    let s := wsStar s
    let s ← ciDrop ['đ','i','ề','u'] s
    let s ← wsPlus s
    match s with
    | c :: _ => if isDigitCh c then some () else none
    | [] => none).isSome

/-- Python `(?im)^[ \t]*\*{0,2}\s*Chương\s+[IVXLC\d]+` — span boundary. -/
def isQdChuongLine (line : Str) : Bool :=
  (do
    let s := line.dropWhile (fun c => c = ' ' || c = '\t')
    let s := dropStars2 s
    let s := wsStar s
    let s ← ciDrop ['c','h','ư','ơ','n','g'] s
    let s ← wsPlus s
    match s with
    | c :: _ => if isRomanChar c then some () else none
    | [] => none).isSome

/-- Python `(?im)^[ \t]*\*{0,2}\s*Phụ\s*lục\s+\d+` — span boundary (note
`\s*` between the two words here). -/
def isQdPhuLucLine (line : Str) : Bool :=
  (do
    let s := line.dropWhile (fun c => c = ' ' || c = '\t')
    let s := dropStars2 s
    let s := wsStar s
    let s ← ciDrop ['p','h','ụ'] s
    let s := wsStar s
    let s ← ciDrop ['l','ụ','c'] s
    let s ← wsPlus s
    match s with
    | c :: _ => if isDigitCh c then some () else none
    | [] => none).isSome

/-- Python `find_quyet_dinh_span` at line granularity: the opener line index
and the end line index (exclusive).  The searches for the end marker all
start at `m_qd.end()`, i.e. at the lines strictly after the opener.
If a "Nơi nhận" line exists it wins outright; otherwise the signature
line and the Điều/Chương/Phụ lục boundaries are pooled into one
candidate list and the minimum is taken (lines 106-131). -/
def find_quyet_dinh_span (lines : List Str) : Option (Nat × Nat) :=
  match firstIdxFrom isQdOpenerLine lines 0 with
  | none => none
  | some q =>
    let e :=
      match firstIdxFrom isNoiNhanQdLine lines (q+1) with
      | some nn => nn
      | none =>
        minBound
          [firstIdxFrom isSignatureLine lines (q+1),
           firstIdxFrom isQdDieuLine lines (q+1),
           firstIdxFrom isQdChuongLine lines (q+1),
           firstIdxFrom isQdPhuLucLine lines (q+1)]
          lines.length
    some (q, e)

/-! ### `department_classifier.py` (lines 14-49) -/

/-- Python `DEPARTMENT_KEYWORDS` in dict order. -/
def DEPARTMENT_KEYWORDS : List (Str × List Str) :=
  [("Training Department".toList,
     ["đào tạo".toList, "giảng dạy".toList, "giáo trình".toList,
      "học tập".toList, "sinh viên".toList]),
   ("Academic Affairs".toList,
     ["học vụ".toList, "đăng ký".toList, "tín chỉ".toList, "kết quả học tập".toList]),
   ("Student Affairs".toList,
     ["sinh viên".toList, "học sinh".toList, "quản lý sinh viên".toList]),
   ("Finance".toList,
     ["tài chính".toList, "học phí".toList, "ngân sách".toList]),
   ("Administration".toList,
     ["hành chính".toList, "quản lý".toList, "tổ chức".toList])]

def DEFAULT_DEPARTMENT : Str := "Training Department".toList

/-- The keyword walk of `extract_department_from_content`. -/
def departmentLookup (lowered : Str) : List (Str × List Str) → Str
  | [] => DEFAULT_DEPARTMENT
  | (dept, kws) :: rest =>
    if kws.any (fun kw => containsSub kw lowered) then dept
    else departmentLookup lowered rest

/-- Python `extract_department_from_content` (the `not isinstance(text, str)`
guard is unrepresentable here; empty text falls through the keyword walk
to the same default). -/
def extract_department_from_content (text : Str) : Str :=
  if text.isEmpty then DEFAULT_DEPARTMENT
  else departmentLookup (lowerStr text) DEPARTMENT_KEYWORDS

/-! ### Source-locator grammar checkers -/

def allDigits (s : Str) : Bool := !s.isEmpty && s.all isDigitCh

def allRoman (s : Str) : Bool := !s.isEmpty && s.all isRomanChar

/-- Python `"Điều {n}"` with `n` a nonempty digit string. -/
def sourceIsDieu (src : Str) : Bool :=
  "Điều ".toList.isPrefixOf src && allDigits (src.drop 5)

/-- Python `"Điều {n} -> Khoản {k}"` — the separator the code actually emits
(document_splitter.py line 1222). -/
def sourceIsDieuKhoanArrow (src : Str) : Bool :=
  "Điều ".toList.isPrefixOf src &&
  (let r := src.drop 5
   let n := r.takeWhile isDigitCh
   !n.isEmpty &&
   (let r2 := r.dropWhile isDigitCh
    " -> Khoản ".toList.isPrefixOf r2 && allDigits (r2.drop 10)))

/-- Python `"Chương {n} — {title}"` with `n` a nonempty `[IVXLC\d]` string. -/
def sourceIsChuong (src : Str) : Bool :=
  "Chương ".toList.isPrefixOf src &&
  (let r := src.drop 7
   let n := r.takeWhile isRomanChar
   !n.isEmpty && " — ".toList.isPrefixOf (r.dropWhile isRomanChar))

/-- Python `"Phụ lục {n}"` with `n` a nonempty digit string. -/
def sourceIsPhuLuc (src : Str) : Bool :=
  "Phụ lục ".toList.isPrefixOf src && allDigits (src.drop 8)

/-- Python `"Điều {n}, Khoản {k}"` — the separator the specification's closed
grammar prescribes.  Modelled from the spec (§3 `source` grammar) for the
refinement comparison; the code never emits this shape. -/
def specSourceDieuKhoan (src : Str) : Bool :=
  "Điều ".toList.isPrefixOf src &&
  (let r := src.drop 5
   let n := r.takeWhile isDigitCh
   !n.isEmpty &&
   (let r2 := r.dropWhile isDigitCh
    ", Khoản ".toList.isPrefixOf r2 && allDigits (r2.drop 8)))

/-- Python `"Điều {n}, Khoản {k}, Điểm {l}"`.  Modelled from the spec (§3). -/
def specSourceDieuKhoanDiem (src : Str) : Bool :=
  "Điều ".toList.isPrefixOf src &&
  (let r := src.drop 5
   let n := r.takeWhile isDigitCh
   !n.isEmpty &&
   (let r2 := r.dropWhile isDigitCh
    ", Khoản ".toList.isPrefixOf r2 &&
    (let r3 := (r2.drop 8).dropWhile isDigitCh
     !((r2.drop 8).takeWhile isDigitCh).isEmpty &&
     ", Điểm ".toList.isPrefixOf r3 && !(r3.drop 7).isEmpty)))

/-- The closed source grammar as the specification states it (§3):
`"Căn cứ" | "Quyết định" | "Điều {n}" | "Điều {n}, Khoản {k}" |
"Điều {n}, Khoản {k}, Điểm {l}" | "Chương {n} — {title}" |
"Phụ lục {n}"`.  Modelled from the spec for the refinement comparison. -/
def spec_source_grammar (src : Str) : Bool :=
  src = "Căn cứ".toList || src = "Quyết định".toList ||
  sourceIsDieu src || specSourceDieuKhoan src || specSourceDieuKhoanDiem src ||
  sourceIsChuong src || sourceIsPhuLuc src

/-! ### Concrete example documents -/

/-- A small but complete decision document: header, date, title, legal
basis, decision statement, a plain Điều, a "và"-titled Điều with three
numbered clauses, and a "Nơi nhận" footer. -/
def exMain : Str :=
  ("Số: 429/QĐ-ĐHCNTT&TT\n" ++
   "Thái Nguyên, ngày 22 tháng 6 năm 2022\n" ++
   "QUYẾT ĐỊNH\n" ++
   "Về việc ban hành Quy định quản lý\n" ++
   "Căn cứ Quyết định số 468/QĐ-TTg;\n" ++
   "Theo đề nghị của Trưởng phòng Đào tạo,\n" ++
   "QUYẾT ĐỊNH:\n" ++
   "Điều 1. Ban hành kèm theo Quyết định này\n" ++
   "Điều 2. Tổ chức thực hiện và hiệu lực\n" ++
   "1. Nội dung một\n" ++
   "2. Nội dung hai\n" ++
   "3. Nội dung ba\n" ++
   "Nơi nhận:\n" ++
   "- Như trên;").toList

/-- An article whose title contains "và" only inside the word "vàng". -/
def exVang : Str :=
  ("Điều 5. Quy định vàng bạc\n" ++
   "1. Nội dung một\n" ++
   "2. Nội dung hai").toList

/-- A non-Điều-1 article whose title is subject-only ("đối tượng áp
dụng" without "phạm vi điều chỉnh") and contains "và", with three
numbered clauses. -/
def exSubjectVa : Str :=
  ("Điều 2. Đối tượng áp dụng và trách nhiệm\n" ++
   "1. Nội dung một\n" ++
   "2. Nội dung hai\n" ++
   "3. Nội dung ba").toList

/-- Decision opener followed by an Điều line and then a signature line,
with no "Nơi nhận" anywhere. -/
def exQdSig : List Str :=
  ["QUYẾT ĐỊNH:".toList, "Điều 1. Nội dung".toList, "HIỆU TRƯỞNG".toList]

/-- Decision opener followed by content and a standard "Nơi nhận:"
footer, with no signature or Điều/Chương/Phụ lục boundary. -/
def exQdNN : List Str :=
  ["QUYẾT ĐỊNH:".toList, "nội dung".toList, "Nơi nhận:".toList,
   "- Như trên;".toList]

/-- A legal-basis opener line with a markdown `#` heading marker. -/
def exCanCuHash : List Str :=
  ["# Căn cứ Luật Giáo dục".toList, "QUYẾT ĐỊNH:".toList]

/-- A document whose "Phụ lục" section is followed by a standard
"Nơi nhận:" footer. -/
def exPhuLucNN : Str :=
  ("**Phụ lục 1 — Danh mục**\n" ++
   "Nội dung phụ lục\n" ++
   "Nơi nhận:\n" ++
   "- Như trên;").toList

/-! ## Helper lemmas -/

theorem dropWhileIdem (p : Char → Bool) (l : Str) :
    (l.dropWhile p).dropWhile p = l.dropWhile p := by
  induction l with
  | nil => rfl
  | cons c t ih =>
    by_cases h : p c = true
    · simp [List.dropWhile_cons, h, ih]
    · simp [List.dropWhile_cons, h]

theorem dropWhileHeadFalse (p : Char → Bool) (l : Str) (c : Char) (t : Str)
    (h : l.dropWhile p = c :: t) : p c = false := by
  induction l with
  | nil => simp at h
  | cons a s ih =>
    rw [List.dropWhile_cons] at h
    by_cases ha : p a = true
    · rw [if_pos ha] at h; exact ih h
    · rw [if_neg ha] at h
      injection h with h1 _
      subst h1
      simpa using ha

theorem rstripLPre (s : Str) : ∃ t, rstripL s ++ t = s := by
  obtain ⟨a, ha⟩ := List.dropWhile_suffix (l := s.reverse) pyIsSpace
  refine ⟨a.reverse, ?_⟩
  rw [rstripL, ← List.reverse_append, ha, List.reverse_reverse]

theorem rstripLIdem (s : Str) : rstripL (rstripL s) = rstripL s := by
  simp [rstripL, List.reverse_reverse, dropWhileIdem]

theorem stripLIdem (s : Str) : stripL (stripL s) = stripL s := by
  rcases hy : stripL s with _ | ⟨c, t⟩
  · simp [stripL, lstripL, rstripL]
  · obtain ⟨t2, ht2⟩ : ∃ t2, stripL s ++ t2 = lstripL s := by
      simpa [stripL] using rstripLPre (lstripL s)
    have hl : lstripL s = c :: (t ++ t2) := by rw [← ht2, hy]; simp
    have hc : pyIsSpace c = false := dropWhileHeadFalse _ _ _ _ hl
    have h1 : lstripL (c :: t) = c :: t := by simp [lstripL, List.dropWhile_cons, hc]
    calc stripL (c :: t) = rstripL (c :: t) := by rw [stripL, h1]
      _ = rstripL (stripL s) := by rw [hy]
      _ = rstripL (rstripL (lstripL s)) := by rw [stripL]
      _ = rstripL (lstripL s) := rstripLIdem _
      _ = stripL s := by rw [stripL]
      _ = c :: t := hy

theorem stripLEqNilIff (s : Str) : stripL s = [] ↔ ∀ c ∈ s, pyIsSpace c = true := by
  constructor
  · intro h c hc
    by_cases htw : c ∈ s.takeWhile pyIsSpace
    · exact List.mem_takeWhile_imp htw
    · have hsplit := List.takeWhile_append_dropWhile pyIsSpace s
      rw [← hsplit] at hc
      rcases List.mem_append.mp hc with hmem | hmem
      · exact absurd hmem htw
      · have h2 : (lstripL s).reverse.dropWhile pyIsSpace = [] := by
          have h3 : ((lstripL s).reverse.dropWhile pyIsSpace).reverse = [] := h
          rwa [List.reverse_eq_nil_iff] at h3
        rw [List.dropWhile_eq_nil_iff] at h2
        exact h2 c (by simpa [lstripL] using hmem)
  · intro h
    have h1 : lstripL s = [] := by
      rw [lstripL, List.dropWhile_eq_nil_iff]
      intro c hc
      exact h c hc
    rw [stripL, h1]
    rfl

theorem stripLNeNil (s : Str) (c : Char) (hc : c ∈ s) (hw : pyIsSpace c = false) :
    stripL s ≠ [] := by
  intro h
  rw [stripLEqNilIff] at h
  rw [h c hc] at hw
  exact Bool.noConfusion hw

theorem joinNlCons (l : Str) (ls : List Str) (h : ls ≠ []) :
    joinNl (l :: ls) = l ++ '\n' :: joinNl ls := by
  cases ls with
  | nil => exact absurd rfl h
  | cons a t => rfl

theorem joinNlAppend (a b : List Str) (ha : a ≠ []) (hb : b ≠ []) :
    joinNl (a ++ b) = joinNl a ++ '\n' :: joinNl b := by
  induction a with
  | nil => exact absurd rfl ha
  | cons l a2 ih =>
    cases a2 with
    | nil => simp [joinNlCons _ _ hb, joinNl]
    | cons m a3 =>
      have h2 : (m :: a3 : List Str) ≠ [] := by simp
      have h3 : ((m :: a3) ++ b : List Str) ≠ [] := by simp
      rw [List.cons_append, joinNlCons _ _ h3, ih h2, joinNlCons _ _ h2]
      simp

theorem joinNlTakePre (ls : List Str) (k : Nat) :
    ∃ t, joinNl (ls.take k) ++ t = joinNl ls := by
  by_cases hd : ls.drop k = []
  · refine ⟨[], ?_⟩
    rw [List.append_nil]
    congr 1
    have hlen : ls.length ≤ k := by
      have h2 := congrArg List.length hd
      simp at h2
      omega
    exact List.take_of_length_le hlen
  · by_cases ht : ls.take k = []
    · exact ⟨joinNl ls, by rw [ht]; rfl⟩
    · refine ⟨'\n' :: joinNl (ls.drop k), ?_⟩
      rw [← joinNlAppend _ _ ht hd, List.take_append_drop]

theorem joinNlDropSuf (ls : List Str) (k : Nat) :
    ∃ t, t ++ joinNl (ls.drop k) = joinNl ls := by
  by_cases ht : ls.take k = []
  · refine ⟨[], ?_⟩
    rw [List.nil_append]
    congr 1
    have h0 : ls = ls.take k ++ ls.drop k := (List.take_append_drop k ls).symm
    rw [ht] at h0
    simpa using h0.symm
  · by_cases hd : ls.drop k = []
    · refine ⟨joinNl ls, ?_⟩
      rw [hd]
      simp [joinNl]
    · refine ⟨joinNl (ls.take k) ++ ['\n'], ?_⟩
      rw [List.append_assoc, List.singleton_append, ← joinNlAppend _ _ ht hd,
        List.take_append_drop]

theorem joinNlSliceInf (ls : List Str) (a b : Nat) :
    List.IsInfix (joinNl (sliceLines ls a b)) (joinNl ls) := by
  obtain ⟨t1, ht1⟩ := joinNlTakePre (ls.drop a) (b - a)
  obtain ⟨t2, ht2⟩ := joinNlDropSuf ls a
  refine ⟨t2, t1, ?_⟩
  rw [sliceLines] at *
  rw [List.append_assoc, ht1, ht2]

theorem stripLInf (s : Str) : List.IsInfix (stripL s) s := by
  obtain ⟨t1, ht1⟩ := rstripLPre (lstripL s)
  obtain ⟨t2, ht2⟩ := List.dropWhile_suffix (l := s) pyIsSpace
  refine ⟨t2, t1, ?_⟩
  rw [List.append_assoc]
  show t2 ++ (stripL s ++ t1) = s
  rw [stripL, ht1]
  exact ht2

theorem joinNlInfOfInf {r ls : List Str} (h : List.IsInfix r ls) :
    List.IsInfix (joinNl r) (joinNl ls) := by
  obtain ⟨A, B, hAB⟩ := h
  obtain ⟨t1, ht1⟩ := joinNlTakePre (r ++ B) r.length
  rw [List.take_left] at ht1
  obtain ⟨t2, ht2⟩ := joinNlDropSuf (A ++ (r ++ B)) A.length
  rw [List.drop_left] at ht2
  refine ⟨t2, t1, ?_⟩
  rw [List.append_assoc, ht1, ht2]
  congr 1
  rw [← List.append_assoc]
  exact hAB

theorem lineAtInf (ls : List Str) (i : Nat) (hi : i < ls.length) :
    List.IsInfix ls[i] (joinNl ls) := by
  have h1 : sliceLines ls i (i + 1) = [ls[i]] := by
    rw [sliceLines]
    have h2 : i + 1 - i = 1 := by omega
    rw [h2, List.drop_eq_getElem_cons hi]
    rfl
  have h2 := joinNlSliceInf ls i (i + 1)
  rw [h1] at h2
  simpa [joinNl] using h2

theorem scanBlockLoopPre (a b : Str → Bool) (ls : List Str) :
    List.IsPrefix (scanBlockLoop a b ls true) ls := by
  induction ls with
  | nil => exact ⟨[], rfl⟩
  | cons l t ih =>
    by_cases ha : a l = true
    · obtain ⟨u, hu⟩ := ih
      exact ⟨u, by simp [scanBlockLoop, ha, hu]⟩
    · by_cases hb : b l = true
      · exact ⟨l :: t, by simp [scanBlockLoop, ha, hb]⟩
      · obtain ⟨u, hu⟩ := ih
        exact ⟨u, by simp [scanBlockLoop, ha, hb, hu]⟩

theorem scanBlockLoopInf (a b : Str → Bool) (ls : List Str) (inB : Bool) :
    List.IsInfix (scanBlockLoop a b ls inB) ls := by
  induction ls generalizing inB with
  | nil => exact ⟨[], [], rfl⟩
  | cons l t ih =>
    cases inB with
    | true =>
      by_cases ha : a l = true
      · obtain ⟨u, hu⟩ := scanBlockLoopPre a b t
        exact ⟨[], u, by simp [scanBlockLoop, ha, hu]⟩
      · by_cases hb : b l = true
        · exact ⟨[], l :: t, by simp [scanBlockLoop, ha, hb]⟩
        · obtain ⟨u, hu⟩ := scanBlockLoopPre a b t
          exact ⟨[], u, by simp [scanBlockLoop, ha, hb, hu]⟩
    | false =>
      by_cases ha : a l = true
      · obtain ⟨u, hu⟩ := scanBlockLoopPre a b t
        exact ⟨[], u, by simp [scanBlockLoop, ha, hu]⟩
      · obtain ⟨A, B, hAB⟩ := ih false
        exact ⟨l :: A, B, by simp [scanBlockLoop, ha, hAB]⟩

theorem headSomeMem {α : Type} {l : List α} {x : α} (h : l.head? = some x) : x ∈ l := by
  cases l with
  | nil => simp at h
  | cons a t =>
    simp at h
    simp [h]

theorem firstIdxFromSome {p : Str → Bool} {lines : List Str} {start j : Nat}
    (h : firstIdxFrom p lines start = some j) :
    start ≤ j ∧ j < lines.length ∧ p (lines.getD j []) = true := by
  unfold firstIdxFrom at h
  have hm := headSomeMem h
  rw [List.mem_filter] at hm
  obtain ⟨hr, hc⟩ := hm
  rw [List.mem_range] at hr
  rw [Bool.and_eq_true] at hc
  exact ⟨of_decide_eq_true hc.1, hr, hc.2⟩

theorem foldrMinLe (xs : List Nat) (d : Nat) : xs.foldr min d ≤ d := by
  induction xs with
  | nil => exact le_refl d
  | cons x t ih => exact le_trans (min_le_right _ _) ih

theorem foldrMinLeMem (xs : List Nat) (d j : Nat) (h : j ∈ xs) : xs.foldr min d ≤ j := by
  induction xs with
  | nil => simp at h
  | cons x t ih =>
    rcases List.mem_cons.mp h with rfl | hm
    · exact min_le_left _ _
    · exact le_trans (min_le_right _ _) (ih hm)

theorem leFoldrMin (xs : List Nat) (d b : Nat) (hd : b ≤ d) (h : ∀ j ∈ xs, b ≤ j) :
    b ≤ xs.foldr min d := by
  induction xs with
  | nil => exact hd
  | cons x t ih =>
    exact le_min (h x (List.mem_cons_self _ _))
      (ih (fun j hj => h j (List.mem_cons_of_mem _ hj)))

theorem foldrMinMem (xs : List Nat) (d : Nat) :
    xs.foldr min d = d ∨ xs.foldr min d ∈ xs := by
  induction xs with
  | nil => exact Or.inl rfl
  | cons x t ih =>
    rcases le_total x (t.foldr min d) with hle | hle
    · right
      rw [List.foldr_cons, min_eq_left hle]
      exact List.mem_cons_self _ _
    · rw [List.foldr_cons, min_eq_right hle]
      rcases ih with h | h
      · exact Or.inl h
      · exact Or.inr (List.mem_cons_of_mem _ h)

theorem leMinBound (cands : List (Option Nat)) (d b : Nat) (hd : b ≤ d)
    (h : ∀ o ∈ cands, ∀ j, o = some j → b ≤ j) : b ≤ minBound cands d := by
  refine leFoldrMin _ _ _ hd ?_
  intro j hj
  rw [List.mem_filterMap] at hj
  obtain ⟨o, ho, hoj⟩ := hj
  exact h o ho j hoj

theorem minBoundLeMem (cands : List (Option Nat)) (d j : Nat) (h : some j ∈ cands) :
    minBound cands d ≤ j := by
  refine foldrMinLeMem _ _ _ ?_
  rw [List.mem_filterMap]
  exact ⟨some j, h, rfl⟩

theorem minBoundLeDflt (cands : List (Option Nat)) (d : Nat) : minBound cands d ≤ d :=
  foldrMinLe _ _

theorem minBoundCases (cands : List (Option Nat)) (d : Nat) :
    minBound cands d = d ∨ some (minBound cands d) ∈ cands := by
  rcases foldrMinMem (cands.filterMap id) d with h | h
  · exact Or.inl h
  · right
    rw [List.mem_filterMap] at h
    obtain ⟨o, ho, hoj⟩ := h
    cases o with
    | none => simp at hoj
    | some v =>
      simp at hoj
      have h2 : some v ∈ cands := ho
      rw [hoj] at h2
      exact h2

theorem digitMem (c : Char) (h : isDigitCh c = true) :
    c ∈ ['0','1','2','3','4','5','6','7','8','9'] := by
  simpa [isDigitCh] using h

theorem lowerCharDigit (c : Char) (h : isDigitCh c = true) : lowerChar c = c := by
  have hm := digitMem c h
  fin_cases hm <;> decide

theorem digitNotSpace (c : Char) (h : isDigitCh c = true) : pyIsSpace c = false := by
  have hm := digitMem c h
  fin_cases hm <;> decide

theorem digitNotKw (c : Char) (h : isDigitCh c = true) :
    c ≠ 'đ' ∧ c ≠ '*' ∧ c ≠ 'p' := by
  have hm := digitMem c h
  fin_cases hm <;> exact ⟨by decide, by decide, by decide⟩

theorem matchNumberedLineShape {l n : Str} (h : matchNumberedLine l = some n) :
    n = (wsStar l).takeWhile isDigitCh ∧ n ≠ [] ∧
    ∃ c rest, wsStar l = c :: rest ∧ isDigitCh c = true ∧ c ∈ l := by
  unfold matchNumberedLine digitsSplit at h
  simp only [] at h
  split at h
  · exact absurd h (by simp)
  · rename_i hne
    have hnum : n = (wsStar l).takeWhile isDigitCh ∧
        ¬((wsStar l).takeWhile isDigitCh).isEmpty = true := by
      constructor
      · split at h
        · split at h
          · injection h with h2; exact h2.symm
          · split at h
            · injection h with h2; exact h2.symm
            · exact absurd h (by simp)
        · exact absurd h (by simp)
      · exact hne
    obtain ⟨hn, hne2⟩ := hnum
    have hne3 : (wsStar l).takeWhile isDigitCh ≠ [] := by
      intro h0; rw [h0] at hne2; simp at hne2
    refine ⟨hn, by rw [hn]; exact hne3, ?_⟩
    cases hws : wsStar l with
    | nil => rw [hws] at hne3; simp at hne3
    | cons c rest =>
      rw [hws, List.takeWhile_cons] at hne3
      by_cases hc : isDigitCh c = true
      · refine ⟨c, rest, rfl, hc, ?_⟩
        have hcm : c ∈ wsStar l := by rw [hws]; exact List.mem_cons_self _ _
        exact (List.dropWhile_sublist pyIsSpace).mem hcm
      · rw [if_neg hc] at hne3
        exact absurd rfl hne3

theorem matchNumberedNotBoundary {l n : Str} (h : matchNumberedLine l = some n) :
    isDieuNumLine l = false ∧ isStarChuongLine l = false ∧
    isPhuLucLooseLine l = false := by
  obtain ⟨-, -, c, rest, hws, hc, -⟩ := matchNumberedLineShape h
  have hlc := lowerCharDigit c hc
  obtain ⟨hd, hst, hp⟩ := digitNotKw c hc
  refine ⟨?_, ?_, ?_⟩
  · unfold isDieuNumLine
    rw [hws]
    simp [ciDrop]
    intro h1
    exact absurd (hlc.symm.trans h1) hd
  · simp only [isStarChuongLine, hws]
    split
    · rename_i t heq
      injection heq with h1 _
      exact absurd h1 hst
    · rfl
  · unfold isPhuLucLooseLine
    rw [hws]
    simp [ciDrop]
    intro h1
    exact absurd (hlc.symm.trans h1) hp

theorem dropWhileAppendAll {p : Char → Bool} {a : Str} (b : Str)
    (h : ∀ c ∈ a, p c = true) : (a ++ b).dropWhile p = b.dropWhile p := by
  induction a with
  | nil => rfl
  | cons c t ih =>
    rw [List.cons_append, List.dropWhile_cons, if_pos (h c (List.mem_cons_self _ _))]
    exact ih (fun d hd => h d (List.mem_cons_of_mem _ hd))

theorem selfPrefixAppend (a b : Str) : a.isPrefixOf (a ++ b) = true := by
  rw [List.isPrefixOf_iff_prefix]
  exact List.prefix_append a b

theorem matchArticleLineDigits {l n t : Str} (h : matchArticleLine l = some (n, t)) :
    n ≠ [] ∧ ∀ c ∈ n, isDigitCh c = true := by
  unfold matchArticleLine at h
  simp only [] at h
  cases h1 : ciDrop ['đ','i','ề','u'] (dropStars2 (wsStar l)) with
  | none => rw [h1] at h; simp [Option.bind_eq_bind'] at h
  | some s1 =>
    rw [h1] at h
    simp only [Option.bind_eq_bind', Option.some_bind] at h
    cases h2 : wsPlus s1 with
    | none => rw [h2] at h; simp [Option.bind_eq_bind'] at h
    | some s2 =>
      rw [h2] at h
      simp only [Option.bind_eq_bind', Option.some_bind, digitsSplit] at h
      split at h
      · simp at h
      · rename_i hne
        have hn : n = s2.takeWhile isDigitCh := by
          rw [Option.some.injEq, Prod.mk.injEq] at h
          exact h.1.symm
        subst hn
        refine ⟨?_, fun c hc => List.mem_takeWhile_imp hc⟩
        intro h0
        rw [h0] at hne
        simp at hne

theorem matchChuongHeadingFacts {l num title g0 : Str}
    (h : matchChuongHeading l = some (num, title, g0)) :
    num ≠ [] ∧ (∀ c ∈ num, isRomanChar c = true) ∧ List.IsPrefix g0 l := by
  unfold matchChuongHeading at h
  simp only [] at h
  split at h
  case _ heq0 =>
    rename_i t0
    simp only [Option.bind_eq_bind', Option.some_bind] at h
    cases h1 : ciDrop ['c','h','ư','ơ','n','g'] t0 with
    | none => rw [h1] at h; simp [Option.bind_eq_bind'] at h
    | some s1 =>
      rw [h1] at h
      simp only [Option.bind_eq_bind', Option.some_bind] at h
      cases h2 : wsPlus s1 with
      | none => rw [h2] at h; simp [Option.bind_eq_bind'] at h
      | some s2 =>
        rw [h2] at h
        simp only [Option.bind_eq_bind', Option.some_bind] at h
        split at h
        · simp at h
        · rename_i hne
          split at h
          case _ t2 heq2 =>
            cases h3 : splitAtStars (wsStar t2) with
            | none => rw [h3] at h; simp [Option.bind_eq_bind'] at h
            | some pr =>
              rw [h3] at h
              simp only [Option.bind_eq_bind', Option.some_bind, Option.some.injEq, Prod.mk.injEq] at h
              obtain ⟨hn, -, hg⟩ := h
              refine ⟨?_, ?_, ?_⟩
              · intro h0
                rw [hn, h0] at hne
                simp at hne
              · intro c hc
                rw [← hn] at hc
                exact List.mem_takeWhile_imp hc
              · rw [← hg]
                exact ⟨l.drop (l.length - pr.2.length), List.take_append_drop _ _⟩
          case _ =>
            simp at h
  case _ =>
    simp at h

theorem matchPhuLucHeadingDigits {l num title : Str}
    (h : matchPhuLucHeading l = some (num, title)) :
    num ≠ [] ∧ ∀ c ∈ num, isDigitCh c = true := by
  unfold matchPhuLucHeading at h
  simp only [] at h
  split at h
  case _ heq0 =>
    rename_i t0
    simp only [Option.bind_eq_bind', Option.some_bind] at h
    cases h1 : ciDrop ['p','h','ụ'] t0 with
    | none => rw [h1] at h; simp [Option.bind_eq_bind'] at h
    | some s1 =>
      rw [h1] at h
      simp only [Option.bind_eq_bind', Option.some_bind] at h
      cases h2 : wsPlus s1 with
      | none => rw [h2] at h; simp [Option.bind_eq_bind'] at h
      | some s2 =>
        rw [h2] at h
        simp only [Option.bind_eq_bind', Option.some_bind] at h
        cases h3 : ciDrop ['l','ụ','c'] s2 with
        | none => rw [h3] at h; simp [Option.bind_eq_bind'] at h
        | some s3 =>
          rw [h3] at h
          simp only [Option.bind_eq_bind', Option.some_bind] at h
          cases h4 : wsPlus s3 with
          | none => rw [h4] at h; simp [Option.bind_eq_bind'] at h
          | some s4 =>
            rw [h4] at h
            simp only [Option.bind_eq_bind', Option.some_bind, digitsSplit] at h
            split at h
            · simp at h
            · rename_i hne
              split at h
              case _ t2 heq2 =>
                cases h5 : splitAtStars (wsStar t2) with
                | none => rw [h5] at h; simp [Option.bind_eq_bind'] at h
                | some pr =>
                  rw [h5] at h
                  simp only [Option.bind_eq_bind', Option.some_bind, Option.some.injEq, Prod.mk.injEq] at h
                  obtain ⟨hn, -⟩ := h
                  refine ⟨?_, ?_⟩
                  · intro h0
                    rw [hn, h0] at hne
                    simp at hne
                  · intro c hc
                    rw [← hn] at hc
                    exact List.mem_takeWhile_imp hc
              case _ =>
                simp at h
  case _ =>
    simp at h

theorem numberedIdxsMem {artLines : List Str} {i : Nat} (h : i ∈ numberedIdxs artLines) :
    i < artLines.length ∧ (matchNumberedLine (artLines.getD i [])).isSome = true := by
  unfold numberedIdxs idxsWhere at h
  rw [List.mem_filter] at h
  exact ⟨List.mem_range.mp h.1, h.2⟩

theorem numberedIdxsSorted (artLines : List Str) :
    (numberedIdxs artLines).Pairwise (· < ·) := by
  unfold numberedIdxs idxsWhere
  exact List.Pairwise.filter _ (List.pairwise_lt_range _)

theorem khoanEndGt {artLines : List Str} {k : Nat} {n : Str}
    (hk : k < artLines.length)
    (hm : matchNumberedLine (artLines.getD k []) = some n) :
    k + 1 ≤ khoanEnd artLines k := by
  obtain ⟨hnb1, hnb2, hnb3⟩ := matchNumberedNotBoundary hm
  unfold khoanEnd
  refine leMinBound _ _ _ (by omega) ?_
  intro o ho j hoj
  simp only [List.mem_cons, List.not_mem_nil, or_false] at ho
  rcases ho with rfl | rfl | rfl
  · obtain ⟨hkj, hjl, hpj⟩ := firstIdxFromSome hoj
    by_cases hjk : j = k
    · rw [hjk, hnb1] at hpj; exact absurd hpj (by simp)
    · omega
  · obtain ⟨hkj, hjl, hpj⟩ := firstIdxFromSome hoj
    by_cases hjk : j = k
    · rw [hjk, hnb2] at hpj; exact absurd hpj (by simp)
    · omega
  · obtain ⟨hkj, hjl, hpj⟩ := firstIdxFromSome hoj
    by_cases hjk : j = k
    · rw [hjk, hnb3] at hpj; exact absurd hpj (by simp)
    · omega

theorem khoanTxtNeNil {artLines : List Str} {k e : Nat} {n : Str}
    (hk : k < artLines.length) (hke : k < e)
    (hm : matchNumberedLine (artLines.getD k []) = some n) :
    stripL (joinNl (sliceLines artLines k e)) ≠ [] := by
  obtain ⟨-, -, c, rest, hws, hc, hcl⟩ := matchNumberedLineShape hm
  have hsl : sliceLines artLines k e =
      (artLines.getD k []) :: ((artLines.drop (k+1)).take (e - k - 1)) := by
    rw [sliceLines, List.drop_eq_getElem_cons hk, List.getD_eq_getElem _ _ hk]
    have he : e - k = (e - k - 1) + 1 := by omega
    rw [he, List.take_succ_cons]
    have h2 : e - k - 1 + 1 - 1 = e - k - 1 := by omega
    rw [h2]
  have hcj : c ∈ joinNl (sliceLines artLines k e) := by
    rw [hsl]
    cases htail : (artLines.drop (k+1)).take (e - k - 1) with
    | nil => simpa [joinNl] using hcl
    | cons x xs =>
      rw [joinNlCons _ _ (by simp)]
      exact List.mem_append.mpr (Or.inl hcl)
  exact stripLNeNil _ c hcj (digitNotSpace c hc)

theorem khoanSecsFacts {artLines : List Str} {num title : Str} {ks : List Nat} {s : Sec}
    (hks : ∀ k ∈ ks, (matchNumberedLine (artLines.getD k [])).isSome = true)
    (h : s ∈ khoanSecs artLines num title ks) :
    s.type = "khoan".toList ∧ s.info.articleTitle = some title ∧
    s.info.articleNum = some num ∧ s.info.source = none ∧
    ∃ k e kn, matchNumberedLine (artLines.getD k []) = some kn ∧
      s.info.khoanNum = some kn ∧
      s.content = stripL (joinNl (sliceLines artLines k e)) := by
  induction ks with
  | nil => simp [khoanSecs] at h
  | cons k rest ih =>
    rw [khoanSecs, List.mem_append] at h
    rcases h with h | h
    · split at h
      · simp at h
      · simp at h
        subst h
        have hsome := hks k (List.mem_cons_self _ _)
        obtain ⟨kn, hkn⟩ := Option.isSome_iff_exists.mp hsome
        have hkn2 : matchNumberedLine (artLines[k]?.getD []) = some kn := by
          rw [← List.getD_eq_getElem?_getD]
          exact hkn
        refine ⟨rfl, rfl, rfl, rfl, k, _, kn, hkn, ?_, rfl⟩
        simp [hkn2]
    · exact ih (fun j hj => hks j (List.mem_cons_of_mem _ hj)) h

theorem processArticleFacts {artLines : List Str} {num title : Str} {s : Sec}
    (h : s ∈ processArticle artLines num title) :
    s = articleSec artLines num title ∨
    (s.type = "khoan".toList ∧ s.info.articleTitle = some title ∧
     s.info.articleNum = some num ∧ s.info.source = none ∧
     containsSub "và".toList title = true ∧
     ∃ k e kn, matchNumberedLine (artLines.getD k []) = some kn ∧
       s.info.khoanNum = some kn ∧
       s.content = stripL (joinNl (sliceLines artLines k e))) := by
  unfold processArticle at h
  split at h
  · simp at h; exact Or.inl h
  · split at h
    · simp at h; exact Or.inl h
    · unfold split_by_khoan_clauses at h
      split at h
      · simp at h; exact Or.inl h
      · split at h
        · rename_i hva
          simp only [] at h
          split at h
          · simp at h; exact Or.inl h
          · have hks : ∀ k ∈ numberedIdxs artLines,
                (matchNumberedLine (artLines.getD k [])).isSome = true :=
              fun k hk => (numberedIdxsMem hk).2
            obtain ⟨ht, hat, han, hsrc, k, e, kn, hkn, hknum, hc⟩ := khoanSecsFacts hks h
            exact Or.inr ⟨ht, hat, han, hsrc, hva, k, e, kn, hkn, hknum, hc⟩
        · simp at h; exact Or.inl h

theorem chuongSecFacts {lines : List Str} {s : Sec} (h : s ∈ extract_chuong_sections lines) :
    s.type = "chuong".toList ∧
    ∃ l, l ∈ lines ∧ ∃ num title g0, matchChuongHeading l = some (num, title, g0) ∧
      s.content = stripL g0 ∧
      s.info.source = some ("Chương ".toList ++ num ++ " — ".toList ++ title) := by
  unfold extract_chuong_sections at h
  rw [List.mem_filterMap] at h
  obtain ⟨l, hl, hfn⟩ := h
  cases hm : matchChuongHeading l with
  | none => rw [hm] at hfn; simp at hfn
  | some triple =>
    obtain ⟨num, rest2⟩ := triple
    obtain ⟨title, g0⟩ := rest2
    rw [hm] at hfn
    simp only [Option.some.injEq] at hfn
    subst hfn
    exact ⟨rfl, l, hl, num, title, g0, hm, rfl, rfl⟩

theorem phuLucSecFacts {lines : List Str} {s : Sec} (h : s ∈ extract_phu_luc_sections lines) :
    s.type = "phu_luc".toList ∧
    ∃ i, i < lines.length ∧ ∃ num title,
      matchPhuLucHeading (lines.getD i []) = some (num, title) ∧
      s.content = phuLucSpan lines i ∧
      s.info.source = some ("Phụ lục ".toList ++ num) := by
  unfold extract_phu_luc_sections at h
  rw [List.mem_filterMap] at h
  obtain ⟨i, hi, hfn⟩ := h
  have hi2 : i < lines.length := by
    unfold idxsWhere at hi
    rw [List.mem_filter] at hi
    exact List.mem_range.mp hi.1
  cases hm : matchPhuLucHeading (lines.getD i []) with
  | none => rw [hm] at hfn; simp at hfn
  | some pr =>
    obtain ⟨num, title⟩ := pr
    rw [hm] at hfn
    simp only [] at hfn
    split at hfn
    · simp at hfn
    · simp only [Option.some.injEq] at hfn
      subst hfn
      exact ⟨rfl, i, hi2, num, title, hm, rfl, rfl⟩

theorem articlesLoopFacts {lines : List Str} {idxs : List Nat} {s : Sec}
    (hidx : ∀ i ∈ idxs, (matchArticleLine (lines.getD i [])).isSome = true)
    (h : s ∈ articlesLoop lines idxs) :
    ∃ a b num title, matchArticleLine (lines.getD a []) = some (num, title) ∧
      (s = articleSec (sliceLines lines a b) num title ∨
       (s.type = "khoan".toList ∧ s.info.articleTitle = some title ∧
        s.info.articleNum = some num ∧ s.info.source = none ∧
        containsSub "và".toList title = true ∧
        ∃ k e kn, matchNumberedLine ((sliceLines lines a b).getD k []) = some kn ∧
          s.info.khoanNum = some kn ∧
          s.content = stripL (joinNl (sliceLines (sliceLines lines a b) k e)))) := by
  induction idxs with
  | nil => simp [articlesLoop] at h
  | cons i rest ih =>
    rw [articlesLoop, List.mem_append] at h
    rcases h with h | h
    · have hsome := hidx i (List.mem_cons_self _ _)
      obtain ⟨nt, hm⟩ := Option.isSome_iff_exists.mp hsome
      obtain ⟨num, title⟩ := nt
      rw [hm] at h
      simp only [Option.getD_some] at h
      rcases processArticleFacts h with h2 | h2
      · exact ⟨i, _, num, title, hm, Or.inl h2⟩
      · obtain ⟨ht, hat, han, hsrc, hva, k, e, kn, hkn, hknum, hc⟩ := h2
        exact ⟨i, _, num, title, hm, Or.inr ⟨ht, hat, han, hsrc, hva, k, e, kn, hkn, hknum, hc⟩⟩
    · exact ih (fun j hj => hidx j (List.mem_cons_of_mem _ hj)) h

theorem splitByHierarchySecFacts {lines0 : List Str} {s : Sec}
    (h : s ∈ split_by_hierarchy lines0) :
    (s.type = "legal_basis".toList ∧
       s.content = extract_legal_basis_grouped (cut_noi_nhan_tail lines0) ∧
       s.info.source = some (extract_document_title (cut_noi_nhan_tail lines0))) ∨
    (s.type = "quyet_dinh".toList ∧
       s.content = extract_quyet_dinh_section (cut_noi_nhan_tail lines0) ∧
       s.info.source = none) ∨
    s ∈ extract_chuong_sections (cut_noi_nhan_tail lines0) ∨
    s ∈ articlesLoop (cut_noi_nhan_tail lines0)
        (idxsWhere (fun l => (matchArticleLine l).isSome) (cut_noi_nhan_tail lines0)) ∨
    s ∈ extract_phu_luc_sections (cut_noi_nhan_tail lines0) := by
  unfold split_by_hierarchy at h
  simp only [] at h
  rw [List.mem_append, List.mem_append] at h
  rcases h with (h | h) | h
  · split at h
    · simp at h
    · simp at h
      subst h
      exact Or.inl ⟨rfl, rfl, rfl⟩
  · split at h
    · simp at h
    · simp at h
      subst h
      exact Or.inr (Or.inl ⟨rfl, rfl, rfl⟩)
  · unfold extract_articles_with_new_rules at h
    rw [List.mem_append, List.mem_append] at h
    rcases h with (h | h) | h
    · exact Or.inr (Or.inr (Or.inl h))
    · exact Or.inr (Or.inr (Or.inr (Or.inl h)))
    · exact Or.inr (Or.inr (Or.inr (Or.inr h)))

theorem idxsWhereIsSome (p : Str → Bool) (lines : List Str) :
    ∀ i ∈ idxsWhere p lines, p (lines.getD i []) = true := by
  intro i hi
  unfold idxsWhere at hi
  rw [List.mem_filter] at hi
  exact hi.2

theorem secContentInf {lines0 : List Str} {s : Sec} (hs : s ∈ split_by_hierarchy lines0) :
    List.IsInfix s.content (joinNl (cut_noi_nhan_tail lines0)) := by
  rcases splitByHierarchySecFacts hs with h | h | h | h | h
  · rw [h.2.1]
    unfold extract_legal_basis_grouped
    exact joinNlInfOfInf (scanBlockLoopInf _ _ _ _)
  · rw [h.2.1]
    unfold extract_quyet_dinh_section
    exact joinNlInfOfInf (scanBlockLoopInf _ _ _ _)
  · obtain ⟨-, l, hl, num, title, g0, hm, hc, -⟩ := chuongSecFacts h
    rw [hc]
    obtain ⟨-, -, hpre⟩ := matchChuongHeadingFacts hm
    obtain ⟨i, hi, hgi⟩ := List.mem_iff_getElem.mp hl
    have hline := lineAtInf _ i hi
    rw [hgi] at hline
    exact (stripLInf g0).trans (hpre.isInfix.trans hline)
  · obtain ⟨a, b2, num, title, hm, h2 | h2⟩ :=
      articlesLoopFacts (idxsWhereIsSome _ _) h
    · rw [h2]
      exact joinNlSliceInf _ a b2
    · obtain ⟨-, -, -, -, -, k, e, kn, -, -, hc⟩ := h2
      rw [hc]
      exact (stripLInf _).trans ((joinNlSliceInf _ k e).trans (joinNlSliceInf _ a b2))
  · obtain ⟨-, i, hi, num, title, hm, hc, -⟩ := phuLucSecFacts h
    rw [hc]
    exact (stripLInf _).trans (joinNlSliceInf _ _ _)

theorem isEmptyFalse {l : Str} (h : l ≠ []) : l.isEmpty = false := by
  cases l with
  | nil => exact absurd rfl h
  | cons c t => rfl

theorem sourceIsDieuOf {num : Str} (h1 : num ≠ []) (h2 : ∀ c ∈ num, isDigitCh c = true) :
    sourceIsDieu ("Điều ".toList ++ num) = true := by
  unfold sourceIsDieu allDigits
  rw [selfPrefixAppend]
  have hd : ("Điều ".toList ++ num).drop 5 = num := by
    have h5 : (5 : Nat) = ("Điều ".toList : Str).length := by rfl
    rw [h5, List.drop_left]
  rw [hd, isEmptyFalse h1]
  simp only [Bool.not_false, Bool.true_and]
  rw [List.all_eq_true]
  exact h2

theorem takeWhileStopsAt {p : Char → Bool} (a b : Str)
    (ha : ∀ c ∈ a, p c = true) (hb : b = [] ∨ p (b.headD ' ') = false) :
    (a ++ b).takeWhile p = a ∧ (a ++ b).dropWhile p = b := by
  constructor
  · rw [List.takeWhile_append_of_pos ha]
    rcases hb with rfl | hb
    · simp
    · cases b with
      | nil => simp
      | cons c t =>
        simp only [List.headD_cons] at hb
        rw [List.takeWhile_cons, if_neg (by rw [hb]; exact Bool.false_ne_true)]
        simp
  · rw [dropWhileAppendAll _ ha]
    rcases hb with rfl | hb
    · simp
    · cases b with
      | nil => simp
      | cons c t =>
        simp only [List.headD_cons] at hb
        rw [List.dropWhile_cons, if_neg (by rw [hb]; exact Bool.false_ne_true)]

theorem sourceIsDieuKhoanArrowOf {n k : Str} (hn1 : n ≠ [])
    (hn2 : ∀ c ∈ n, isDigitCh c = true) (hk1 : k ≠ [])
    (hk2 : ∀ c ∈ k, isDigitCh c = true) :
    sourceIsDieuKhoanArrow
      ("Điều ".toList ++ n ++ " -> Khoản ".toList ++ k) = true := by
  unfold sourceIsDieuKhoanArrow allDigits
  rw [List.append_assoc, List.append_assoc, selfPrefixAppend]
  have hd : ("Điều ".toList ++ (n ++ (" -> Khoản ".toList ++ k))).drop 5 =
      n ++ (" -> Khoản ".toList ++ k) := by
    have h5 : (5 : Nat) = ("Điều ".toList : Str).length := by rfl
    rw [h5, List.drop_left]
  rw [hd]
  have hsep : " -> Khoản ".toList ++ k = ' ' :: ("-> Khoản ".toList ++ k) := rfl
  obtain ⟨htw, hdw⟩ := takeWhileStopsAt n (" -> Khoản ".toList ++ k) hn2
    (Or.inr (by rw [hsep]; simp; decide))
  simp only [Bool.true_and]
  rw [htw, hdw, isEmptyFalse hn1]
  have hpre2 : " -> Khoản ".toList.isPrefixOf (" -> Khoản ".toList ++ k) = true :=
    selfPrefixAppend _ _
  rw [hpre2]
  have hd2 : (" -> Khoản ".toList ++ k).drop 10 = k := by
    have h10 : (10 : Nat) = (" -> Khoản ".toList : Str).length := by rfl
    rw [h10, List.drop_left]
  rw [hd2, isEmptyFalse hk1]
  simp only [Bool.not_false, Bool.true_and]
  rw [List.all_eq_true]
  exact hk2

theorem sourceIsChuongOf {num title : Str} (h1 : num ≠ [])
    (h2 : ∀ c ∈ num, isRomanChar c = true) :
    sourceIsChuong ("Chương ".toList ++ num ++ " — ".toList ++ title) = true := by
  unfold sourceIsChuong
  rw [List.append_assoc, List.append_assoc, selfPrefixAppend]
  have hd : ("Chương ".toList ++ (num ++ (" — ".toList ++ title))).drop 7 =
      num ++ (" — ".toList ++ title) := by
    have h7 : (7 : Nat) = ("Chương ".toList : Str).length := by rfl
    rw [h7, List.drop_left]
  rw [hd]
  have hsep : " — ".toList ++ title = ' ' :: ("— ".toList ++ title) := rfl
  obtain ⟨htw, hdw⟩ := takeWhileStopsAt num (" — ".toList ++ title) h2
    (Or.inr (by rw [hsep]; simp; decide))
  simp only [Bool.true_and]
  rw [htw, hdw, isEmptyFalse h1]
  simp only [Bool.not_false, Bool.true_and]
  exact selfPrefixAppend _ _

theorem sourceIsPhuLucOf {num : Str} (h1 : num ≠ [])
    (h2 : ∀ c ∈ num, isDigitCh c = true) :
    sourceIsPhuLuc ("Phụ lục ".toList ++ num) = true := by
  unfold sourceIsPhuLuc allDigits
  rw [selfPrefixAppend]
  have hd : ("Phụ lục ".toList ++ num).drop 8 = num := by
    have h8 : (8 : Nat) = ("Phụ lục ".toList : Str).length := by rfl
    rw [h8, List.drop_left]
  rw [hd, isEmptyFalse h1]
  simp only [Bool.not_false, Bool.true_and]
  rw [List.all_eq_true]
  exact h2

theorem splitDocumentMem {text filename : Str} {b : LegalBlock}
    (hb : b ∈ split_document text filename) :
    ∃ s ∈ split_by_hierarchy (splitLines (normNl text)),
      (stripL s.content).isEmpty = false ∧
      b = { doc_id := extractDocId (normNl text), data_type := "markdown".toList,
            category := generate_category_rule_based s.content,
            date := extractDate (normNl text), source := blockSource s,
            content := stripL s.content } := by
  unfold split_document at hb
  split at hb
  · simp at hb
  · rw [List.mem_filterMap] at hb
    obtain ⟨s, hs, hfn⟩ := hb
    split at hfn
    · simp at hfn
    · rename_i hne
      rw [Bool.not_eq_true] at hne
      simp only [Option.some.injEq] at hfn
      exact ⟨s, hs, hne, hfn.symm⟩

set_option maxRecDepth 100000

/-! ## Claim theorems -/

/-- C9: every block returned by `split_document` has non-empty content,
non-empty even after whitespace stripping (a section whose span is blank
after stripping is dropped), and empty or whitespace-only input yields
the empty list. -/
theorem claim_C9 :
    (∀ (text filename : Str) (b : LegalBlock), b ∈ split_document text filename →
       b.content ≠ [] ∧ stripL b.content ≠ []) ∧
    (∀ text filename : Str, stripL text = [] → split_document text filename = []) := by
  constructor
  · intro text filename b hb
    obtain ⟨s, hs, hne, hbdef⟩ := splitDocumentMem hb
    have hc : b.content = stripL s.content := by rw [hbdef]
    have hne2 : stripL s.content ≠ [] := by
      intro h0
      rw [h0] at hne
      simp at hne
    rw [hc]
    exact ⟨hne2, by rw [stripLIdem]; exact hne2⟩
  · intro text filename h
    unfold split_document
    rw [if_pos (by rw [h]; rfl)]

/-- Witness for C9 at a whitespace-only document and at the first block of
a concrete document. -/
theorem claim_C9_witness :
    split_document "  \n ".toList [] = [] ∧
    ((split_document exVang []).getD 0 ⟨[], [], [], [], [], [], 0⟩).content ≠ [] :=
  ⟨claim_C9.2 "  \n ".toList [] (by decide),
   (claim_C9.1 exVang [] _ (by decide)).1⟩

/-- C10: the khoản-split trigger is a raw substring test: the title
"Quy định vàng bạc" does not contain "và" as a standalone word (no
space-padded occurrence) yet contains it inside "vàng", and the splitter
still splits the article into numbered-clause khoan blocks. -/
theorem claim_C10 :
    matchArticleLine "Điều 5. Quy định vàng bạc".toList =
      some ("5".toList, "Quy định vàng bạc".toList) ∧
    containsSub "và".toList "Quy định vàng bạc".toList = true ∧
    containsSub " và ".toList ((' ' :: "Quy định vàng bạc".toList) ++ [' ']) = false ∧
    (split_document exVang []).map (fun b => b.source) =
      ["Điều 5 -> Khoản 1".toList, "Điều 5 -> Khoản 2".toList] := by
  refine ⟨by decide, by decide, by decide, by decide⟩

/-- Counterexample to C1: an Điều 2 whose title contains "và" and whose
body has exactly three numbered-clause lines is still emitted as a single
whole 'article' block (no khoan blocks), because the subject-only guard
(title contains "đối tượng áp dụng" without "phạm vi điều chỉnh") applies
to every article, not only to Điều 1. -/
theorem claim_C1_counterexample :
    matchArticleLine "Điều 2. Đối tượng áp dụng và trách nhiệm".toList =
      some ("2".toList, "Đối tượng áp dụng và trách nhiệm".toList) ∧
    containsSub "và".toList "Đối tượng áp dụng và trách nhiệm".toList = true ∧
    numberedIdxs (splitLines (normNl exSubjectVa)) = [1, 2, 3] ∧
    is_subject_only "Đối tượng áp dụng và trách nhiệm".toList = true ∧
    (split_document exSubjectVa []).map (fun b => b.source) = ["Điều 2".toList] ∧
    (split_document exSubjectVa []).map (fun b => b.data_type) = ["markdown".toList] := by
  refine ⟨by decide, by decide, by decide, by decide, by decide, by decide⟩

/-- C2: an article numbered 1 whose title has both "phạm vi điều chỉnh"
and "đối tượng áp dụng" is kept as one whole article block (even with
"và" in the title), and so is one whose title has "phạm vi điều chỉnh"
without "đối tượng áp dụng". -/
theorem claim_C2 :
    ∀ (artLines : List Str) (title : Str),
      (is_d1_scope_and_subject title = true →
        processArticle artLines "1".toList title =
          [articleSec artLines "1".toList title]) ∧
      (is_scope_only title = true →
        processArticle artLines "1".toList title =
          [articleSec artLines "1".toList title]) := by
  intro artLines title
  constructor
  · intro h
    unfold processArticle
    rw [if_pos (by rw [h]; rfl)]
  · intro h
    have h2 : containsSub "đối tượng áp dụng".toList (lowerStr (stripL title)) = false := by
      unfold is_scope_only at h
      simp only [] at h
      rw [Bool.and_eq_true] at h
      have := h.2
      simpa using this
    have hd1 : is_d1_scope_and_subject title = false := by
      unfold is_d1_scope_and_subject
      simp only []
      rw [h2]
      simp
    unfold processArticle
    rw [if_neg (by rw [hd1]; simp), if_pos (by rw [h]; rfl)]

/-- Witness for C2 at a concrete Điều-1 title containing "và". -/
theorem claim_C2_witness :
    is_d1_scope_and_subject "Phạm vi điều chỉnh và đối tượng áp dụng".toList = true ∧
    processArticle
      ["Điều 1. Phạm vi điều chỉnh và đối tượng áp dụng".toList, "1. Một".toList]
      "1".toList "Phạm vi điều chỉnh và đối tượng áp dụng".toList =
      [articleSec
        ["Điều 1. Phạm vi điều chỉnh và đối tượng áp dụng".toList, "1. Một".toList]
        "1".toList "Phạm vi điều chỉnh và đối tượng áp dụng".toList] :=
  ⟨by decide, (claim_C2 _ _).1 (by decide)⟩

/-- C7: the metadata date field pivots a sub-100 year by fifty (below 50
to the 2000s, otherwise the 1900s), discards calendar-invalid dates such
as February 31 (empty string, no exception: the extractor is total and
the `datetime` `ValueError` branch is the `none` of `mkDateStr`), as the
concrete leading-zero-year and invalid-date runs show. -/
theorem claim_C7 :
    (∀ y : Nat, y < 50 → normalizeYear y = y + 2000) ∧
    (∀ y : Nat, 50 ≤ y → y < 100 → normalizeYear y = y + 1900) ∧
    (∀ y : Nat, 100 ≤ y → normalizeYear y = y) ∧
    mkDateStr "31".toList "2".toList "2022".toList = none ∧
    extractDate "ngày 22 tháng 6 năm 0022\n".toList = "2022-06-22".toList ∧
    extractDate "ngày 22 tháng 6 năm 0099\n".toList = "1999-06-22".toList ∧
    extractDate "ngày 31 tháng 2 năm 2022\n".toList = [] := by
  refine ⟨?_, ?_, ?_, by decide, by decide, by decide, by decide⟩
  · intro y h
    unfold normalizeYear
    rw [if_pos (by omega), if_pos h]
  · intro y h1 h2
    unfold normalizeYear
    rw [if_pos h2, if_neg (by omega)]
  · intro y h
    unfold normalizeYear
    rw [if_neg (by omega)]

/-- Witness for C7 at the pivot year 22. -/
theorem claim_C7_witness : normalizeYear 22 = 22 + 2000 :=
  claim_C7.1 22 (by decide)

/-- C1 (amended): a khoan section is produced only from an article whose
title contains "và"; and under the additional guard that the title is not
subject-only, an article with "và" and exactly three numbered-clause
lines splits into exactly three khoan sections, each spanning from its
numbered line to the next (the last to the khoản end boundary), while an
article with "và" and no numbered lines stays one whole article
section. -/
theorem claim_C1 :
    (∀ (lines0 : List Str) (s : Sec), s ∈ split_by_hierarchy lines0 →
       s.type = "khoan".toList →
       ∃ t, s.info.articleTitle = some t ∧ containsSub "và".toList t = true) ∧
    (∀ (artLines : List Str) (num title : Str) (i1 i2 i3 : Nat),
       is_subject_only title = false →
       containsSub "và".toList title = true →
       numberedIdxs artLines = [i1, i2, i3] →
       split_by_khoan_clauses artLines num title =
         [⟨"khoan".toList, stripL (joinNl (sliceLines artLines i1 i2)),
            { articleNum := some num, articleTitle := some title,
              khoanNum := some ((matchNumberedLine (artLines.getD i1 [])).getD []) }⟩,
          ⟨"khoan".toList, stripL (joinNl (sliceLines artLines i2 i3)),
            { articleNum := some num, articleTitle := some title,
              khoanNum := some ((matchNumberedLine (artLines.getD i2 [])).getD []) }⟩,
          ⟨"khoan".toList, stripL (joinNl (sliceLines artLines i3 (khoanEnd artLines i3))),
            { articleNum := some num, articleTitle := some title,
              khoanNum := some ((matchNumberedLine (artLines.getD i3 [])).getD []) }⟩]) ∧
    (∀ (artLines : List Str) (num title : Str),
       containsSub "và".toList title = true →
       numberedIdxs artLines = [] →
       split_by_khoan_clauses artLines num title = [articleSec artLines num title]) := by
  refine ⟨?_, ?_, ?_⟩
  · intro lines0 s hs ht
    rcases splitByHierarchySecFacts hs with h | h | h | h | h
    · exact absurd (h.1.symm.trans ht) (by decide)
    · exact absurd (h.1.symm.trans ht) (by decide)
    · exact absurd ((chuongSecFacts h).1.symm.trans ht) (by decide)
    · obtain ⟨a, b2, num, title, hm, h2 | h2⟩ := articlesLoopFacts (idxsWhereIsSome _ _) h
      · rw [h2] at ht
        have ht2 : ("article".toList : Str) = "khoan".toList := ht
        exact absurd ht2 (by decide)
      · obtain ⟨-, hat, -, -, hva, -⟩ := h2
        exact ⟨title, hat, hva⟩
    · exact absurd ((phuLucSecFacts h).1.symm.trans ht) (by decide)
  · intro artLines num title i1 i2 i3 hsub hva hks
    have hm1 : i1 ∈ numberedIdxs artLines := by rw [hks]; simp
    have hm2 : i2 ∈ numberedIdxs artLines := by rw [hks]; simp
    have hm3 : i3 ∈ numberedIdxs artLines := by rw [hks]; simp
    obtain ⟨hl1, hs1⟩ := numberedIdxsMem hm1
    obtain ⟨hl2, hs2⟩ := numberedIdxsMem hm2
    obtain ⟨hl3, hs3⟩ := numberedIdxsMem hm3
    obtain ⟨n1, hn1⟩ := Option.isSome_iff_exists.mp hs1
    obtain ⟨n2, hn2⟩ := Option.isSome_iff_exists.mp hs2
    obtain ⟨n3, hn3⟩ := Option.isSome_iff_exists.mp hs3
    have hp := numberedIdxsSorted artLines
    rw [hks] at hp
    have h12 : i1 < i2 := by
      rw [List.pairwise_cons] at hp
      exact hp.1 i2 (by simp)
    have h23 : i2 < i3 := by
      rw [List.pairwise_cons] at hp
      have hp2 := hp.2
      rw [List.pairwise_cons] at hp2
      exact hp2.1 i3 (by simp)
    have hend := khoanEndGt hl3 hn3
    have hke3 : i3 < khoanEnd artLines i3 := by omega
    have ht1 := isEmptyFalse (khoanTxtNeNil hl1 h12 hn1)
    have ht2 := isEmptyFalse (khoanTxtNeNil hl2 h23 hn2)
    have ht3 := isEmptyFalse (khoanTxtNeNil hl3 hke3 hn3)
    unfold split_by_khoan_clauses
    rw [if_neg (by rw [hsub]; exact Bool.false_ne_true), if_pos hva]
    simp only []
    rw [hks, if_neg (by simp)]
    simp only [khoanSecs, List.head?_cons, List.head?_nil]
    simp only [ht1, ht2, ht3]
    simp
  · intro artLines num title hva hks
    unfold split_by_khoan_clauses
    by_cases hsub : is_subject_only title = true
    · rw [if_pos hsub]
    · rw [if_neg hsub, if_pos hva]
      simp only []
      rw [hks]
      rfl

/-- Witness for C1 at a three-clause article and at a clause-free
article, both with "và" in the title and neither subject-only. -/
theorem claim_C1_witness :
    is_subject_only "Thi đua và khen thưởng".toList = false ∧
    containsSub "và".toList "Thi đua và khen thưởng".toList = true ∧
    numberedIdxs ["Điều 7. Thi đua và khen thưởng".toList, "1. A".toList,
      "2. B".toList, "3. C".toList] = [1, 2, 3] ∧
    split_by_khoan_clauses
      ["Điều 7. Thi đua và khen thưởng".toList, "1. A".toList, "2. B".toList,
       "3. C".toList] "7".toList "Thi đua và khen thưởng".toList =
      [⟨"khoan".toList, "1. A".toList,
         { articleNum := some "7".toList,
           articleTitle := some "Thi đua và khen thưởng".toList,
           khoanNum := some "1".toList }⟩,
       ⟨"khoan".toList, "2. B".toList,
         { articleNum := some "7".toList,
           articleTitle := some "Thi đua và khen thưởng".toList,
           khoanNum := some "2".toList }⟩,
       ⟨"khoan".toList, "3. C".toList,
         { articleNum := some "7".toList,
           articleTitle := some "Thi đua và khen thưởng".toList,
           khoanNum := some "3".toList }⟩] ∧
    split_by_khoan_clauses ["Điều 9. Tổng kết và thi hành".toList] "9".toList
      "Tổng kết và thi hành".toList =
      [articleSec ["Điều 9. Tổng kết và thi hành".toList] "9".toList
        "Tổng kết và thi hành".toList] :=
  ⟨by decide, by decide, by decide,
   claim_C1.2.1 _ _ _ 1 2 3 (by decide) (by decide) (by decide),
   claim_C1.2.2 _ _ _ (by decide) (by decide)⟩

/-- Counterexample to C3: the cut regex's character class `nh[aă]n`
cannot match the standard spelling "nhận", so on a document whose
"Phụ lục" section is followed by a "Nơi nhận:" footer, the phu_luc
block's content contains the footer line. -/
theorem claim_C3_counterexample :
    (splitLines (normNl exPhuLucNN)).getD 2 [] = "Nơi nhận:".toList ∧
    (split_document exPhuLucNN []).length = 1 ∧
    containsSub "Nơi nhận:".toList
      (((split_document exPhuLucNN []).getD 0 ⟨[], [], [], [], [], [], 0⟩).content) =
      true := by
  refine ⟨by decide, by decide, by decide⟩

/-- C3 (amended): the Nơi-nhận tail cut is the identity whenever no line
matches its regex, and that regex rejects the standard spelling
"Nơi nhận:" (its class `[aă]` does not contain 'ậ') while accepting the
unaccented "Nơi nhan:"; every emitted block's content lies inside the
joined post-cut lines; and on the representative document the emitted
blocks nonetheless contain no "Nơi nhận" text, because the article
boundary regex spells the word correctly. -/
theorem claim_C3 :
    (∀ lines : List Str, (∀ l ∈ lines, isNoiNhanCutLine l = false) →
       cut_noi_nhan_tail lines = lines) ∧
    isNoiNhanCutLine "Nơi nhận:".toList = false ∧
    isNoiNhanCutLine "Nơi nhan:".toList = true ∧
    (∀ (text filename : Str) (b : LegalBlock), b ∈ split_document text filename →
       List.IsInfix b.content (joinNl (cut_noi_nhan_tail (splitLines (normNl text))))) ∧
    (∀ b ∈ split_document exMain [], containsSub "Nơi nhận".toList b.content = false) := by
  refine ⟨?_, by decide, by decide, ?_, by decide⟩
  · intro lines hno
    unfold cut_noi_nhan_tail cutIdx
    cases h : firstIdxFrom isNoiNhanCutLine lines 0 with
    | none => simp
    | some j =>
      obtain ⟨-, hj, hp⟩ := firstIdxFromSome h
      have hmem : lines.getD j [] ∈ lines := by
        rw [List.getD_eq_getElem _ _ hj]
        exact List.getElem_mem hj
      rw [hno _ hmem] at hp
      exact absurd hp Bool.false_ne_true
  · intro text filename b hb
    obtain ⟨s, hs, -, hbdef⟩ := splitDocumentMem hb
    have hc : b.content = stripL s.content := by rw [hbdef]
    rw [hc]
    exact (stripLInf _).trans (secContentInf hs)

/-- Witness for C3 at a cut-free line list and at a concrete block. -/
theorem claim_C3_witness :
    cut_noi_nhan_tail ["Điều 1. A".toList] = ["Điều 1. A".toList] ∧
    List.IsInfix ((split_document exVang []).getD 0 ⟨[], [], [], [], [], [], 0⟩).content
      (joinNl (cut_noi_nhan_tail (splitLines (normNl exVang)))) :=
  ⟨claim_C3.1 _ (by decide),
   claim_C3.2.2.2.1 exVang [] _ (by decide)⟩

/-- Counterexample to C4: on a representative document the legal-basis
block's source is the document title (not "Căn cứ") and khoan sources
use " -> " (not ", "), so four of the six emitted blocks fall outside the
spec's source grammar. -/
theorem claim_C4_counterexample :
    (split_document exMain []).map (fun b => b.source) =
      ["Về việc ban hành Quy định quản lý".toList, "Quyết định".toList,
       "Điều 1".toList, "Điều 2 -> Khoản 1".toList, "Điều 2 -> Khoản 2".toList,
       "Điều 2 -> Khoản 3".toList] ∧
    (split_document exMain []).map (fun b => spec_source_grammar b.source) =
      [false, true, true, false, false, false] := by
  refine ⟨by decide, by decide⟩

/-- C4 (amended): every block's source is the extracted document title
(legal-basis block), the literal "Quyết định", or matches one of the
code's source shapes: "Điều n" with n a nonempty digit string,
"Điều n -> Khoản k", "Chương n — title" with n nonempty roman, or
"Phụ lục n". -/
theorem claim_C4 :
    ∀ (text filename : Str) (b : LegalBlock), b ∈ split_document text filename →
      b.source = extract_document_title (cut_noi_nhan_tail (splitLines (normNl text))) ∨
      b.source = "Quyết định".toList ∨
      sourceIsDieu b.source = true ∨
      sourceIsDieuKhoanArrow b.source = true ∨
      sourceIsChuong b.source = true ∨
      sourceIsPhuLuc b.source = true := by
  intro text filename b hb
  obtain ⟨s, hs, -, hbdef⟩ := splitDocumentMem hb
  have hsrc : b.source = blockSource s := by rw [hbdef]
  rw [hsrc]
  rcases splitByHierarchySecFacts hs with h | h | h | h | h
  · left
    unfold blockSource
    rw [h.2.2]
  · right; left
    unfold blockSource
    rw [h.2.2, h.1]
    rw [if_neg (by decide), if_pos rfl]
  · obtain ⟨-, l, hl, num, title, g0, hm, -, hsome⟩ := chuongSecFacts h
    obtain ⟨hne, hrom, -⟩ := matchChuongHeadingFacts hm
    right; right; right; right; left
    unfold blockSource
    rw [hsome]
    exact sourceIsChuongOf hne hrom
  · obtain ⟨a, b2, num, title, hm, h2 | h2⟩ := articlesLoopFacts (idxsWhereIsSome _ _) h
    · obtain ⟨hnne, hdig⟩ := matchArticleLineDigits hm
      right; right; left
      rw [h2]
      exact sourceIsDieuOf hnne hdig
    · obtain ⟨ht, -, han, hsome, -, k, e, kn, hkn, hknum, -⟩ := h2
      obtain ⟨hnne, hdig⟩ := matchArticleLineDigits hm
      obtain ⟨hkshape, hkne, -⟩ := matchNumberedLineShape hkn
      have hkdig : ∀ c ∈ kn, isDigitCh c = true := by
        intro c hc
        rw [hkshape] at hc
        exact List.mem_takeWhile_imp hc
      right; right; right; left
      unfold blockSource
      rw [hsome, ht, han, hknum]
      rw [if_neg (by decide), if_neg (by decide), if_neg (by decide), if_pos rfl]
      simp only [Option.getD_some]
      exact sourceIsDieuKhoanArrowOf hnne hdig hkne hkdig
  · obtain ⟨-, i, hi, num, title, hm, -, hsome⟩ := phuLucSecFacts h
    obtain ⟨hne, hdig⟩ := matchPhuLucHeadingDigits hm
    right; right; right; right; right
    unfold blockSource
    rw [hsome]
    exact sourceIsPhuLucOf hne hdig

/-- Witness for C4 at a concrete block. -/
theorem claim_C4_witness :
    ((split_document exVang []).getD 0 ⟨[], [], [], [], [], [], 0⟩).source =
      extract_document_title (cut_noi_nhan_tail (splitLines (normNl exVang))) ∨
    ((split_document exVang []).getD 0 ⟨[], [], [], [], [], [], 0⟩).source =
      "Quyết định".toList ∨
    sourceIsDieu ((split_document exVang []).getD 0 ⟨[], [], [], [], [], [], 0⟩).source = true ∨
    sourceIsDieuKhoanArrow
      ((split_document exVang []).getD 0 ⟨[], [], [], [], [], [], 0⟩).source = true ∨
    sourceIsChuong ((split_document exVang []).getD 0 ⟨[], [], [], [], [], [], 0⟩).source = true ∨
    sourceIsPhuLuc ((split_document exVang []).getD 0 ⟨[], [], [], [], [], [], 0⟩).source = true :=
  claim_C4 exVang [] _ (by decide)

/-- Counterexample to C5, in two parts.  First: with no "Nơi nhận" line,
a decision opener at line 0, an Điều line at line 1 and a signature line
at line 2, the span ends at the Điều line, not at the signature line —
the code pools the signature with the Điều/Chương/Phụ lục candidates and
takes the minimum instead of giving the signature priority.  Second: the
finder's own footer pattern `N[ơo]i\s+nh[aă]n` cannot match the standard
spelling "nhận" (the class `[aă]` lacks 'ậ'), so on a document whose
decision statement is followed by a real "Nơi nhận:" footer the span does
not end there: it runs through the footer to the end of the document. -/
theorem claim_C5_counterexample :
    isQdOpenerLine (exQdSig.getD 0 []) = true ∧
    (∀ l ∈ exQdSig, isNoiNhanQdLine l = false) ∧
    isSignatureLine (exQdSig.getD 2 []) = true ∧
    isQdDieuLine (exQdSig.getD 1 []) = true ∧
    find_quyet_dinh_span exQdSig = some (0, 1) ∧
    exQdNN.getD 2 [] = "Nơi nhận:".toList ∧
    exQdNN.length = 4 ∧
    find_quyet_dinh_span exQdNN = some (0, 4) := by
  refine ⟨by decide, by decide, by decide, by decide, by decide, by decide,
    by decide, by decide⟩

/-- C5 (amended): the finder's footer pattern rejects the standard
spelling "Nơi nhận:" (the class `[aă]` lacks 'ậ') and accepts only the
unaccented spellings such as "Nơi nhan:"; when the span finder returns
a span, its start is a decision-opener line, and the end is the first
line after the opener matching that (spelling-defective) footer pattern
when one exists, and otherwise the minimum over the pooled candidates
(first signature, Điều, Chương, Phụ lục line after the opener),
defaulting to the number of lines when no candidate exists — so a real
"Nơi nhận:" footer never terminates the span. -/
theorem claim_C5 :
    isNoiNhanQdLine "Nơi nhận:".toList = false ∧
    isNoiNhanQdLine "Nơi nhan:".toList = true ∧
    ∀ (lines : List Str) (q e : Nat), find_quyet_dinh_span lines = some (q, e) →
      isQdOpenerLine (lines.getD q []) = true ∧
      ((∃ nn, firstIdxFrom isNoiNhanQdLine lines (q+1) = some nn ∧ e = nn) ∨
       (firstIdxFrom isNoiNhanQdLine lines (q+1) = none ∧
        (some e ∈ [firstIdxFrom isSignatureLine lines (q+1),
                   firstIdxFrom isQdDieuLine lines (q+1),
                   firstIdxFrom isQdChuongLine lines (q+1),
                   firstIdxFrom isQdPhuLucLine lines (q+1)] ∨ e = lines.length) ∧
        (∀ j, some j ∈ [firstIdxFrom isSignatureLine lines (q+1),
                        firstIdxFrom isQdDieuLine lines (q+1),
                        firstIdxFrom isQdChuongLine lines (q+1),
                        firstIdxFrom isQdPhuLucLine lines (q+1)] → e ≤ j))) := by
  refine ⟨by decide, by decide, ?_⟩
  intro lines q e h
  unfold find_quyet_dinh_span at h
  cases hq : firstIdxFrom isQdOpenerLine lines 0 with
  | none => rw [hq] at h; simp at h
  | some q0 =>
    rw [hq] at h
    simp only [Option.some.injEq, Prod.mk.injEq] at h
    obtain ⟨hq0, he⟩ := h
    rw [← hq0]
    obtain ⟨-, hql, hqp⟩ := firstIdxFromSome hq
    refine ⟨hqp, ?_⟩
    cases hnn : firstIdxFrom isNoiNhanQdLine lines (q0+1) with
    | some nn =>
      rw [hnn] at he
      exact Or.inl ⟨nn, rfl, he.symm⟩
    | none =>
      rw [hnn] at he
      refine Or.inr ⟨rfl, ?_, ?_⟩
      · rcases minBoundCases
          [firstIdxFrom isSignatureLine lines (q0+1),
           firstIdxFrom isQdDieuLine lines (q0+1),
           firstIdxFrom isQdChuongLine lines (q0+1),
           firstIdxFrom isQdPhuLucLine lines (q0+1)] lines.length with hc | hc
        · right; rw [← he, hc]
        · left; rw [← he]; exact hc
      · intro j hj
        rw [← he]
        exact minBoundLeMem _ _ _ hj

/-- Witness for C5 at the concrete signature/Điều document. -/
theorem claim_C5_witness : isQdOpenerLine (exQdSig.getD 0 []) = true :=
  (claim_C5.2.2 exQdSig 0 1 (by decide)).1

theorem searchBHead (att : Str → Bool) (l : Str) (h : att l = true) :
    searchB att l = true := by
  cases l with
  | nil => exact h
  | cons c t => rw [searchB, h]; rfl

theorem tryCanCuOpenerCanCu (rest : Str) :
    tryCanCuOpener ("Căn cứ".toList ++ rest) = true := rfl

theorem rstripAppendOfId {r : Str} (a : Str) (h : rstripL r = r) (hne : r ≠ []) :
    rstripL (a ++ r) = a ++ r := by
  have h2 : r.reverse.dropWhile pyIsSpace = r.reverse := by
    have h3 := congrArg List.reverse h
    rw [rstripL, List.reverse_reverse] at h3
    exact h3
  cases hr : r.reverse with
  | nil =>
    have : r = [] := by simpa using congrArg List.reverse hr
    exact absurd this hne
  | cons c t =>
    have hc : pyIsSpace c = false := by
      rw [hr, List.dropWhile_cons] at h2
      by_cases hcc : pyIsSpace c = true
      · rw [if_pos hcc] at h2
        have hlen := congrArg List.length h2
        have hle := (List.dropWhile_sublist (p := pyIsSpace) (l := t)).length_le
        simp at hlen
        omega
      · simpa using hcc
    rw [rstripL, List.reverse_append, hr, List.cons_append, List.dropWhile_cons,
      if_neg (by rw [hc]; exact Bool.false_ne_true)]
    have hrev : c :: (t ++ a.reverse) = (a ++ r).reverse := by
      rw [List.reverse_append, hr, List.cons_append]
    rw [hrev, List.reverse_reverse]

theorem canCuLoopNoOpener :
    ∀ {lines : List Str}, (∀ l ∈ lines, canCuOpenerSearch (stripL l) = false) →
      canCuLoop lines false = [] := by
  intro lines
  induction lines with
  | nil => intro h; rfl
  | cons l ls ih =>
    intro h
    simp only [canCuLoop]
    by_cases hstop : canCuStopSearch (stripL l) = true
    · rw [if_pos hstop]
    · rw [if_neg hstop,
        if_neg (by rw [h l (List.mem_cons_self _ _)]; exact Bool.false_ne_true),
        if_neg (by simp)]
      exact ih (fun x hx => h x (List.mem_cons_of_mem _ hx))

theorem departmentLookupMem (lowered : Str) :
    ∀ l : List (Str × List Str), departmentLookup lowered l = DEFAULT_DEPARTMENT ∨
      departmentLookup lowered l ∈ l.map Prod.fst := by
  intro l
  induction l with
  | nil => exact Or.inl rfl
  | cons p rest ih =>
    obtain ⟨dept, kws⟩ := p
    simp only [departmentLookup]
    split
    · right
      simp
    · rcases ih with h | h
      · exact Or.inl h
      · right
        simp only [List.map_cons]
        exact List.mem_cons_of_mem _ h

theorem departmentLookupNoKw (lowered : Str) :
    ∀ l : List (Str × List Str),
      (∀ p ∈ l, ∀ kw ∈ p.2, containsSub kw lowered = false) →
      departmentLookup lowered l = DEFAULT_DEPARTMENT := by
  intro l
  induction l with
  | nil => intro h; rfl
  | cons p rest ih =>
    intro h
    obtain ⟨dept, kws⟩ := p
    simp only [departmentLookup]
    rw [if_neg (by
      rw [List.any_eq_true]
      rintro ⟨kw, hkw, hck⟩
      rw [h (dept, kws) (List.mem_cons_self _ _) kw hkw] at hck
      exact absurd hck (by decide))]
    exact ih (fun p hp => h p (List.mem_cons_of_mem _ hp))

/-- Counterexample to C6: the Legal-Basis Block Builder does not strip
leading markdown heading markers — a "# Căn cứ ..." line is emitted with
its '#' intact. -/
theorem claim_C6_counterexample :
    (create_can_cu_blocks exCanCuHash).map (fun s => s.content) =
      ["# Căn cứ Luật Giáo dục".toList] ∧
    ((create_can_cu_blocks exCanCuHash).getD 0 ⟨[], [], {}⟩).content.headD ' ' = '#' := by
  refine ⟨by decide, by decide⟩

/-- C6 (amended): no '*' survives into the builder's content; when no
line contains an opener match the result is empty; and three clean
"Căn cứ" lines followed by a "QUYẾT ĐỊNH:" line produce exactly one
block holding the three lines joined in order, without the decision
line (only '*' is stripped — '#' is not). -/
theorem claim_C6 :
    (∀ (lines : List Str) (s : Sec), s ∈ create_can_cu_blocks lines →
       '*' ∉ s.content) ∧
    (∀ lines : List Str, (∀ l ∈ lines, canCuOpenerSearch (stripL l) = false) →
       create_can_cu_blocks lines = []) ∧
    (∀ r1 r2 r3 : Str,
       stripL ("Căn cứ".toList ++ r1) = "Căn cứ".toList ++ r1 →
       stripL ("Căn cứ".toList ++ r2) = "Căn cứ".toList ++ r2 →
       stripL ("Căn cứ".toList ++ r3) = "Căn cứ".toList ++ r3 →
       canCuStopSearch ("Căn cứ".toList ++ r1) = false →
       canCuStopSearch ("Căn cứ".toList ++ r2) = false →
       canCuStopSearch ("Căn cứ".toList ++ r3) = false →
       '*' ∉ r1 → '*' ∉ r2 → '*' ∉ r3 →
       create_can_cu_blocks
         ["Căn cứ".toList ++ r1, "Căn cứ".toList ++ r2, "Căn cứ".toList ++ r3,
          "QUYẾT ĐỊNH:".toList] =
       [⟨"legal_basis".toList,
          ("Căn cứ".toList ++ r1) ++ '\n' ::
            (("Căn cứ".toList ++ r2) ++ '\n' :: ("Căn cứ".toList ++ r3)),
          { name := some "Căn cứ".toList, source := some "Căn cứ".toList,
            category := some "source_doc".toList }⟩]) := by
  refine ⟨?_, ?_, ?_⟩
  · intro lines s h
    unfold create_can_cu_blocks at h
    simp only [] at h
    split at h
    · simp only [List.mem_singleton] at h
      subst h
      show '*' ∉ (stripL (joinNl (canCuLoop lines false))).filter (fun c => c ≠ '*')
      intro hc
      rw [List.mem_filter] at hc
      have h2 := hc.2
      simp at h2
    · simp at h
  · intro lines h
    unfold create_can_cu_blocks
    simp only []
    rw [canCuLoopNoOpener h]
    rfl
  · intro r1 r2 r3 h1 h2 h3 hst1 hst2 hst3 hr1 hr2 hr3
    have hop1 : canCuOpenerSearch ("Căn cứ".toList ++ r1) = true :=
      searchBHead _ _ (tryCanCuOpenerCanCu r1)
    have hop2 : canCuOpenerSearch ("Căn cứ".toList ++ r2) = true :=
      searchBHead _ _ (tryCanCuOpenerCanCu r2)
    have hop3 : canCuOpenerSearch ("Căn cứ".toList ++ r3) = true :=
      searchBHead _ _ (tryCanCuOpenerCanCu r3)
    have hrs1 : rstripL ("Căn cứ".toList ++ r1) = "Căn cứ".toList ++ r1 := h1
    have hrs2 : rstripL ("Căn cứ".toList ++ r2) = "Căn cứ".toList ++ r2 := h2
    have hrs3 : rstripL ("Căn cứ".toList ++ r3) = "Căn cứ".toList ++ r3 := h3
    have hqd : canCuStopSearch (stripL "QUYẾT ĐỊNH:".toList) = true := by decide
    have hloop : canCuLoop
        ["Căn cứ".toList ++ r1, "Căn cứ".toList ++ r2, "Căn cứ".toList ++ r3,
         "QUYẾT ĐỊNH:".toList] false =
        ["Căn cứ".toList ++ r1, "Căn cứ".toList ++ r2, "Căn cứ".toList ++ r3] := by
      simp only [canCuLoop, h1, h2, h3]
      rw [if_neg (by rw [hst1]; exact Bool.false_ne_true), if_pos hop1, hrs1,
        if_neg (by rw [hst2]; exact Bool.false_ne_true), if_pos hop2, hrs2,
        if_neg (by rw [hst3]; exact Bool.false_ne_true), if_pos hop3, hrs3,
        if_pos hqd]
    have hne3 : ("Căn cứ".toList ++ r3 : Str) ≠ [] := by simp
    have hrjoin : rstripL
        (("Căn cứ".toList ++ r1) ++ '\n' ::
          (("Căn cứ".toList ++ r2) ++ '\n' :: ("Căn cứ".toList ++ r3))) =
        ("Căn cứ".toList ++ r1) ++ '\n' ::
          (("Căn cứ".toList ++ r2) ++ '\n' :: ("Căn cứ".toList ++ r3)) := by
      have ha := rstripAppendOfId
        (("Căn cứ".toList ++ r1) ++ '\n' :: (("Căn cứ".toList ++ r2) ++ ['\n']))
        hrs3 hne3
      have hassoc : (("Căn cứ".toList ++ r1) ++ '\n' ::
            (("Căn cứ".toList ++ r2) ++ ['\n'])) ++ ("Căn cứ".toList ++ r3) =
          ("Căn cứ".toList ++ r1) ++ '\n' ::
            (("Căn cứ".toList ++ r2) ++ '\n' :: ("Căn cứ".toList ++ r3)) := by
        simp
      rw [hassoc] at ha
      exact ha
    have hstrip : stripL
        (("Căn cứ".toList ++ r1) ++ '\n' ::
          (("Căn cứ".toList ++ r2) ++ '\n' :: ("Căn cứ".toList ++ r3))) =
        ("Căn cứ".toList ++ r1) ++ '\n' ::
          (("Căn cứ".toList ++ r2) ++ '\n' :: ("Căn cứ".toList ++ r3)) := hrjoin
    have hfilter : (("Căn cứ".toList ++ r1) ++ '\n' ::
          (("Căn cứ".toList ++ r2) ++ '\n' :: ("Căn cứ".toList ++ r3))).filter
          (fun c => c ≠ '*') =
        ("Căn cứ".toList ++ r1) ++ '\n' ::
          (("Căn cứ".toList ++ r2) ++ '\n' :: ("Căn cứ".toList ++ r3)) := by
      rw [List.filter_eq_self]
      intro a ha
      simp only [List.mem_append, List.mem_cons] at ha
      have hstar : a ≠ '*' := by
        intro heq
        subst heq
        rcases ha with (h | h) | h | (h | h) | h | (h | h)
        · exact absurd h (by decide)
        · exact hr1 h
        · exact absurd h (by decide)
        · exact absurd h (by decide)
        · exact hr2 h
        · exact absurd h (by decide)
        · exact absurd h (by decide)
        · exact hr3 h
      exact decide_eq_true hstar
    have hbne : (("Căn cứ".toList ++ r1) ++ '\n' ::
        (("Căn cứ".toList ++ r2) ++ '\n' :: ("Căn cứ".toList ++ r3)) : Str).isEmpty =
        false := isEmptyFalse (by simp)
    unfold create_can_cu_blocks
    simp only []
    rw [hloop,
      show joinNl ["Căn cứ".toList ++ r1, "Căn cứ".toList ++ r2,
        "Căn cứ".toList ++ r3] =
        ("Căn cứ".toList ++ r1) ++ '\n' ::
          (("Căn cứ".toList ++ r2) ++ '\n' :: ("Căn cứ".toList ++ r3)) from rfl,
      hstrip, hfilter, hstrip, hbne]
    rw [if_pos (by decide)]

/-- Witness for C6 at concrete opener-free and three-Căn-cứ documents. -/
theorem claim_C6_witness :
    create_can_cu_blocks ["Điều 1. A".toList] = [] ∧
    create_can_cu_blocks
      ["Căn cứ".toList ++ " Luật A;".toList, "Căn cứ".toList ++ " Nghị định B;".toList,
       "Căn cứ".toList ++ " Thông tư C;".toList, "QUYẾT ĐỊNH:".toList] =
    [⟨"legal_basis".toList,
       ("Căn cứ".toList ++ " Luật A;".toList) ++ '\n' ::
         (("Căn cứ".toList ++ " Nghị định B;".toList) ++ '\n' ::
           ("Căn cứ".toList ++ " Thông tư C;".toList)),
       { name := some "Căn cứ".toList, source := some "Căn cứ".toList,
         category := some "source_doc".toList }⟩] :=
  ⟨claim_C6.2.1 _ (by decide),
   claim_C6.2.2 " Luật A;".toList " Nghị định B;".toList " Thông tư C;".toList
     (by decide) (by decide) (by decide) (by decide) (by decide) (by decide)
     (by decide) (by decide) (by decide)⟩

/-- Counterexample to C8: the Markdown serialization of the blocks of a
concrete document contains no "department" metadata at all (the
rule-based `LegalBlock` has no department field). -/
theorem claim_C8_counterexample :
    containsSub "department".toList
      (lowerStr (to_markdown (split_document exVang []))) = false := by decide

/-- C8 (amended): the standalone department classifier always returns
one of the five fixed department names, defaulting to
"Training Department" when no keyword of any department occurs in the
lowered text; `split_document` blocks themselves carry no department
field (see the counterexample for the serialization). -/
theorem claim_C8 :
    (∀ text : Str,
       extract_department_from_content text ∈ DEPARTMENT_KEYWORDS.map Prod.fst) ∧
    (∀ text : Str,
       (∀ p ∈ DEPARTMENT_KEYWORDS, ∀ kw ∈ p.2,
         containsSub kw (lowerStr text) = false) →
       extract_department_from_content text = DEFAULT_DEPARTMENT) ∧
    DEPARTMENT_KEYWORDS.map Prod.fst =
      ["Training Department".toList, "Academic Affairs".toList,
       "Student Affairs".toList, "Finance".toList, "Administration".toList] ∧
    DEFAULT_DEPARTMENT = "Training Department".toList := by
  refine ⟨?_, ?_, by decide, by decide⟩
  · intro text
    unfold extract_department_from_content
    split
    · decide
    · rcases departmentLookupMem (lowerStr text) DEPARTMENT_KEYWORDS with h | h
      · rw [h]; decide
      · exact h
  · intro text hno
    unfold extract_department_from_content
    split
    · rfl
    · exact departmentLookupNoKw (lowerStr text) DEPARTMENT_KEYWORDS hno

/-- Witness for C8 at a keyword-free text. -/
theorem claim_C8_witness :
    extract_department_from_content "xyz".toList = DEFAULT_DEPARTMENT :=
  claim_C8.2.1 "xyz".toList (by decide)

end VnLegal
